import Mathlib

/-!
# User Location Information IE (v2/ies/uli.go)

A shallow embedding of the constructors of the User Location Information IE
and of `uliPayloadLen`, followed by the properties established about them.

Conventions of the embedding.

* Go's unsigned machine integers (`uint8`, `uint16`, `uint32`) are natural
  numbers; a conversion `byte(x)` is written `x % 256`, and a shift that
  could leave the width is reduced modulo `2 ^ w`.  Go's `int` is `Int`.
* A byte slice is a `List Nat`.  `make([]byte, n)` is `n` zero bytes.
* A Go call either returns or stops with a run-time panic (slice bounds,
  index out of range).  The outer `Option` of a result is `none` for a panic.
* A `*IE` result is an `Option IE`, where `none` is Go's `nil`.
* Package `utils` is not part of the sources at hand.  The constructors take
  the two functions they call from it as a parameter of type `Utils`.
-/

namespace GoGtp

/-! ## Constants (uli.go, lines 13-22) -/

def cgilen : Nat := 7
def sailen : Nat := 7
def railen : Nat := 7
def tailen : Nat := 5
def ecgilen : Nat := 7
def lailen : Nat := 5
def menbilen : Nat := 6
def emenbilen : Nat := 6

/-! ## The surrounding declarations -/

/-- Modelled from the spec: the IE type is declared outside the sources at
hand.  Section 3 of the spec gives its attributes: a type tag, an instance
discriminator and a payload of bytes. -/
structure IE where
  Tag : Nat
  Inst : Nat
  Payload : List Nat
  deriving DecidableEq, Repr

/-- Modelled from the spec: the constructor `New(type, instance, payload)` is
declared outside the sources at hand.  It stores its three arguments. -/
def New (itype ins : Nat) (data : List Nat) : IE :=
  { Tag := itype, Inst := ins, Payload := data }

/-- Modelled from the spec: the type tag constant `UserLocationInformation`
is declared outside the sources at hand.  Section 6 of the spec gives the tag
of the location-information family as `0x98`. -/
def UserLocationInformation : Nat := 0x98

/-- The two functions of package `utils` called by the constructors.
`EncodePLMN` returns a byte slice or an error; `Uint32To24` returns a byte
slice. -/
structure Utils where
  EncodePLMN : String → String → Except String (List Nat)
  Uint32To24 : Nat → List Nat

/-! ## Go primitives on byte slices -/

/-- Go's `make([]byte, n)`: a slice of `n` zero bytes. -/
def make (n : Nat) : List Nat := List.replicate n 0

/-- Go's `p[i] = b`.  Panics when `i` is not an index of `p`. -/
def setIndex (p : List Nat) (i : Nat) (b : Nat) : Option (List Nat) :=
  if i < p.length then some (p.take i ++ [b] ++ p.drop (i + 1)) else none

/-- Go's `copy(p[lo:hi], src)` as an update of `p`.  The slice expression
panics unless `lo ≤ hi ≤ len(p)`; `copy` then moves
`min(hi - lo, len(src))` bytes. -/
def copyInto (p : List Nat) (lo hi : Nat) (src : List Nat) : Option (List Nat) :=
  if lo ≤ hi ∧ hi ≤ p.length then
    let n := min (hi - lo) src.length
    some (p.take lo ++ src.take n ++ p.drop (lo + n))
  else none

/-- Go's `binary.BigEndian.PutUint16(p[lo:hi], v)` as an update of `p`.  It
panics when the slice expression does, or when the slice has fewer than two
bytes; otherwise it stores `byte(v >> 8)` and `byte(v)`. -/
def PutUint16 (p : List Nat) (lo hi : Nat) (v : Nat) : Option (List Nat) :=
  if lo ≤ hi ∧ hi ≤ p.length ∧ 2 ≤ hi - lo then
    some (p.take lo ++ [(v >>> 8) % 256, v % 256] ++ p.drop (lo + 2))
  else none

/-- Go's `binary.BigEndian.PutUint32(p[lo:hi], v)` as an update of `p`.  It
panics when the slice expression does, or when the slice has fewer than four
bytes; otherwise it stores the four bytes of `v`, most significant first. -/
def PutUint32 (p : List Nat) (lo hi : Nat) (v : Nat) : Option (List Nat) :=
  if lo ≤ hi ∧ hi ≤ p.length ∧ 4 ≤ hi - lo then
    some (p.take lo ++ [(v >>> 24) % 256, (v >>> 16) % 256, (v >>> 8) % 256, v % 256]
      ++ p.drop (lo + 4))
  else none

/-! ## uliPayloadLen (uli.go, lines 131-158) -/

def uliPayloadLen (flags : Nat) : Nat := Id.run do
  let mut l := 1
  if flags &&& 0x01 = 1 then
    l := l + cgilen
  if (flags >>> 1) &&& 0x01 = 1 then
    l := l + sailen
  if (flags >>> 2) &&& 0x01 = 1 then
    l := l + railen
  if (flags >>> 3) &&& 0x01 = 1 then
    l := l + tailen
  if (flags >>> 4) &&& 0x01 = 1 then
    l := l + ecgilen
  if (flags >>> 5) &&& 0x01 = 1 then
    l := l + lailen
  if (flags >>> 6) &&& 0x01 = 1 then
    l := l + menbilen
  if (flags >>> 7) &&& 0x01 = 1 then
    l := l + emenbilen
  return l

/-! ## NewUserLocationInformation (uli.go, lines 62-129) -/

/-- The presence mask computed in lines 67-74 from the eight `uint8`
has-arguments. -/
def uliFlags (hasCGI hasSAI hasRAI hasTAI hasECGI hasLAI hasMENBI hasEMENBI : Nat) : Nat :=
  (((hasEMENBI &&& 0x01) <<< 7) % 256) |||
    (((hasMENBI &&& 0x01) <<< 6) % 256) |||
    (((hasLAI &&& 0x01) <<< 5) % 256) |||
    (((hasECGI &&& 0x01) <<< 4) % 256) |||
    (((hasTAI &&& 0x01) <<< 3) % 256) |||
    (((hasRAI &&& 0x01) <<< 2) % 256) |||
    (((hasSAI &&& 0x01) <<< 1) % 256) |||
    (hasCGI &&& 0x01)

/-- Lines 84-128: the eight conditional blocks that fill the payload, run on
the allocated payload with the encoded PLMN at hand.  The result is the
payload and the final offset. -/
def uliFill (u : Utils) (flags : Nat) (plmn : List Nat)
    (lac ci sac rac tac eci menbi emenbi : Nat) (payload0 : List Nat) :
    Option (List Nat × Nat) := do
  let mut payload := payload0
  let mut offset := 1
  if flags &&& 0x01 = 1 then
    payload ← copyInto payload offset (offset + 3) plmn
    payload ← PutUint16 payload (offset + 3) (offset + 5) lac
    payload ← PutUint16 payload (offset + 5) (offset + 7) ci
    offset := offset + cgilen
  if (flags >>> 1) &&& 0x01 = 1 then
    payload ← copyInto payload offset (offset + 3) plmn
    payload ← PutUint16 payload (offset + 3) (offset + 5) lac
    payload ← PutUint16 payload (offset + 5) (offset + 7) sac
    offset := offset + sailen
  if (flags >>> 2) &&& 0x01 = 1 then
    payload ← copyInto payload offset (offset + 3) plmn
    payload ← PutUint16 payload (offset + 3) (offset + 5) lac
    payload ← PutUint16 payload (offset + 5) (offset + 7) rac
    offset := offset + railen
  if (flags >>> 3) &&& 0x01 = 1 then
    payload ← copyInto payload offset (offset + 3) plmn
    payload ← PutUint16 payload (offset + 3) (offset + 5) tac
    offset := offset + tailen
  if (flags >>> 4) &&& 0x01 = 1 then
    payload ← copyInto payload offset (offset + 3) plmn
    let eci := eci &&& 0xfffff
    payload ← PutUint32 payload (offset + 3) (offset + 7) eci
    offset := offset + ecgilen
  if (flags >>> 5) &&& 0x01 = 1 then
    payload ← copyInto payload offset (offset + 3) plmn
    payload ← PutUint16 payload (offset + 3) (offset + 5) lac
    offset := offset + lailen
  if (flags >>> 6) &&& 0x01 = 1 then
    payload ← copyInto payload offset (offset + 3) plmn
    payload ← copyInto payload (offset + 3) (offset + 6) (u.Uint32To24 menbi)
    offset := offset + menbilen
  if (flags >>> 7) &&& 0x01 = 1 then
    payload ← copyInto payload offset (offset + 3) plmn
    payload ← copyInto payload (offset + 3) (offset + 6) (u.Uint32To24 emenbi)
  return (payload, offset)

def NewUserLocationInformation (u : Utils)
    (hasCGI hasSAI hasRAI hasTAI hasECGI hasLAI hasMENBI hasEMENBI : Nat)
    (mcc mnc : String) (lac ci sac rac tac : Nat) (eci menbi emenbi : Nat) :
    Option (Option IE) := do
  let flags := uliFlags hasCGI hasSAI hasRAI hasTAI hasECGI hasLAI hasMENBI hasEMENBI
  let payload ← setIndex (make (uliPayloadLen flags)) 0 flags
  match u.EncodePLMN mcc mnc with
  | .error _ => return none
  | .ok plmn =>
    let (payload, _) ← uliFill u flags plmn lac ci sac rac tac eci menbi emenbi payload
    return some (New UserLocationInformation 0x00 payload)

/-! ## NewUserLocationInformationLazy (uli.go, lines 24-60) -/

/-- Go's conversion `uint16(x)` of an `int`. -/
def toUint16 (x : Int) : Nat := (x % 65536).toNat

/-- Go's conversion `uint32(x)` of an `int`. -/
def toUint32 (x : Int) : Nat := (x % 4294967296).toNat

def NewUserLocationInformationLazy (u : Utils) (mcc mnc : String)
    (lac ci sac rac tac eci menbi emenbi : Int) : Option (Option IE) :=
  let hasCGI : Nat := if ci ≥ 0 then 1 else 0
  let hasSAI : Nat := if sac ≥ 0 then 1 else 0
  let hasRAI : Nat := if rac ≥ 0 then 1 else 0
  let hasTAI : Nat := if tac ≥ 0 then 1 else 0
  let hasECGI : Nat := if eci ≥ 0 then 1 else 0
  let hasLAI : Nat := if lac ≥ 0 then 1 else 0
  let hasMENBI : Nat := if menbi ≥ 0 then 1 else 0
  let hasEMENBI : Nat := if emenbi ≥ 0 then 1 else 0
  NewUserLocationInformation u
    hasCGI hasSAI hasRAI hasTAI hasECGI hasLAI hasMENBI hasEMENBI
    mcc mnc (toUint16 lac) (toUint16 ci) (toUint16 sac) (toUint16 rac) (toUint16 tac)
    (toUint32 eci) (toUint32 menbi) (toUint32 emenbi)

/-! ## The wire layout, written out

The byte sequences that the statements below compare the constructors with. -/

/-- The first `k` bytes of `l`, filled up with zero bytes to length `k`: what
`copy` leaves in a fresh `k`-byte window. -/
def padTo (k : Nat) (l : List Nat) : List Nat :=
  l.take k ++ List.replicate (k - l.length) 0

/-- The two bytes of a 16-bit value, most significant first. -/
def be16 (v : Nat) : List Nat := [(v >>> 8) % 256, v % 256]

/-- The four bytes of a 32-bit value, most significant first. -/
def be32 (v : Nat) : List Nat :=
  [(v >>> 24) % 256, (v >>> 16) % 256, (v >>> 8) % 256, v % 256]

/-- The three low bytes of a value, most significant first. -/
def be24 (v : Nat) : List Nat := [(v >>> 16) % 256, (v >>> 8) % 256, v % 256]

/-- Presence of kind `k` as the code tests it: `flags>>k&0x01 == 1`. -/
def present (flags k : Nat) : Prop := (flags >>> k) &&& 0x01 = 1

instance (flags k : Nat) : Decidable (present flags k) :=
  inferInstanceAs (Decidable ((flags >>> k) &&& 0x01 = 1))

/-- The fixed length of the sub-record of kind `k` (bit index `k`). -/
def kindLen : Nat → Nat
  | 0 => cgilen
  | 1 => sailen
  | 2 => railen
  | 3 => tailen
  | 4 => ecgilen
  | 5 => lailen
  | 6 => menbilen
  | 7 => emenbilen
  | _ => 0

/-- The sub-record of kind `k` as a byte sequence: the PLMN window followed by
the tail of the kind. -/
def kindRecord (u : Utils) (plmn : List Nat)
    (lac ci sac rac tac eci menbi emenbi : Nat) : Nat → List Nat
  | 0 => padTo 3 plmn ++ be16 lac ++ be16 ci
  | 1 => padTo 3 plmn ++ be16 lac ++ be16 sac
  | 2 => padTo 3 plmn ++ be16 lac ++ be16 rac
  | 3 => padTo 3 plmn ++ be16 tac
  | 4 => padTo 3 plmn ++ be32 (eci &&& 0xfffff)
  | 5 => padTo 3 plmn ++ be16 lac
  | 6 => padTo 3 plmn ++ padTo 3 (u.Uint32To24 menbi)
  | 7 => padTo 3 plmn ++ padTo 3 (u.Uint32To24 emenbi)
  | _ => []

/-- The sub-record of kind `k` when its bit is set in `flags`, nothing
otherwise. -/
def optRecord (u : Utils) (flags : Nat) (plmn : List Nat)
    (lac ci sac rac tac eci menbi emenbi : Nat) (k : Nat) : List Nat :=
  if present flags k then kindRecord u plmn lac ci sac rac tac eci menbi emenbi k else []

/-- The length taken by kind `k`: its fixed length when its bit is set, zero
otherwise. -/
def optLen (flags k : Nat) : Nat := if present flags k then kindLen k else 0

/-- The sub-records of the kinds `k, k+1, ..., k+n-1`, in this order. -/
def recordsFrom (u : Utils) (flags : Nat) (plmn : List Nat)
    (lac ci sac rac tac eci menbi emenbi : Nat) (k : Nat) : Nat → List Nat
  | 0 => []
  | n + 1 => optRecord u flags plmn lac ci sac rac tac eci menbi emenbi k
      ++ recordsFrom u flags plmn lac ci sac rac tac eci menbi emenbi (k + 1) n

/-- The total length of the present kinds among `k, ..., k+n-1`. -/
def lenFrom (flags : Nat) (k : Nat) : Nat → Nat
  | 0 => 0
  | n + 1 => optLen flags k + lenFrom flags (k + 1) n

/-- The payload layout: the mask byte, then the present sub-records in
ascending bit order. -/
def uliLayout (u : Utils) (flags : Nat) (plmn : List Nat)
    (lac ci sac rac tac eci menbi emenbi : Nat) : List Nat :=
  flags :: recordsFrom u flags plmn lac ci sac rac tac eci menbi emenbi 0 8

/-! ## The blocks of lines 84-128, one by one

`uliFill` run from a given block on, with the offset and the payload reached
so far.  These functions only cut `uliFill` into its eight blocks. -/

def fillEMENBI (u : Utils) (flags : Nat) (plmn : List Nat) (emenbi : Nat)
    (offset : Nat) (payload : List Nat) : Option (List Nat × Nat) :=
  if (flags >>> 7) &&& 0x01 = 1 then
    (copyInto payload offset (offset + 3) plmn).bind fun payload =>
    (copyInto payload (offset + 3) (offset + 6) (u.Uint32To24 emenbi)).bind fun payload =>
    some (payload, offset)
  else some (payload, offset)

def fillMENBI (u : Utils) (flags : Nat) (plmn : List Nat) (menbi emenbi : Nat)
    (offset : Nat) (payload : List Nat) : Option (List Nat × Nat) :=
  if (flags >>> 6) &&& 0x01 = 1 then
    (copyInto payload offset (offset + 3) plmn).bind fun payload =>
    (copyInto payload (offset + 3) (offset + 6) (u.Uint32To24 menbi)).bind fun payload =>
    fillEMENBI u flags plmn emenbi (offset + menbilen) payload
  else fillEMENBI u flags plmn emenbi offset payload

def fillLAI (u : Utils) (flags : Nat) (plmn : List Nat) (lac menbi emenbi : Nat)
    (offset : Nat) (payload : List Nat) : Option (List Nat × Nat) :=
  if (flags >>> 5) &&& 0x01 = 1 then
    (copyInto payload offset (offset + 3) plmn).bind fun payload =>
    (PutUint16 payload (offset + 3) (offset + 5) lac).bind fun payload =>
    fillMENBI u flags plmn menbi emenbi (offset + lailen) payload
  else fillMENBI u flags plmn menbi emenbi offset payload

def fillECGI (u : Utils) (flags : Nat) (plmn : List Nat) (lac eci menbi emenbi : Nat)
    (offset : Nat) (payload : List Nat) : Option (List Nat × Nat) :=
  if (flags >>> 4) &&& 0x01 = 1 then
    (copyInto payload offset (offset + 3) plmn).bind fun payload =>
    (PutUint32 payload (offset + 3) (offset + 7) (eci &&& 0xfffff)).bind fun payload =>
    fillLAI u flags plmn lac menbi emenbi (offset + ecgilen) payload
  else fillLAI u flags plmn lac menbi emenbi offset payload

def fillTAI (u : Utils) (flags : Nat) (plmn : List Nat) (lac tac eci menbi emenbi : Nat)
    (offset : Nat) (payload : List Nat) : Option (List Nat × Nat) :=
  if (flags >>> 3) &&& 0x01 = 1 then
    (copyInto payload offset (offset + 3) plmn).bind fun payload =>
    (PutUint16 payload (offset + 3) (offset + 5) tac).bind fun payload =>
    fillECGI u flags plmn lac eci menbi emenbi (offset + tailen) payload
  else fillECGI u flags plmn lac eci menbi emenbi offset payload

def fillRAI (u : Utils) (flags : Nat) (plmn : List Nat) (lac rac tac eci menbi emenbi : Nat)
    (offset : Nat) (payload : List Nat) : Option (List Nat × Nat) :=
  if (flags >>> 2) &&& 0x01 = 1 then
    (copyInto payload offset (offset + 3) plmn).bind fun payload =>
    (PutUint16 payload (offset + 3) (offset + 5) lac).bind fun payload =>
    (PutUint16 payload (offset + 5) (offset + 7) rac).bind fun payload =>
    fillTAI u flags plmn lac tac eci menbi emenbi (offset + railen) payload
  else fillTAI u flags plmn lac tac eci menbi emenbi offset payload

def fillSAI (u : Utils) (flags : Nat) (plmn : List Nat)
    (lac sac rac tac eci menbi emenbi : Nat)
    (offset : Nat) (payload : List Nat) : Option (List Nat × Nat) :=
  if (flags >>> 1) &&& 0x01 = 1 then
    (copyInto payload offset (offset + 3) plmn).bind fun payload =>
    (PutUint16 payload (offset + 3) (offset + 5) lac).bind fun payload =>
    (PutUint16 payload (offset + 5) (offset + 7) sac).bind fun payload =>
    fillRAI u flags plmn lac rac tac eci menbi emenbi (offset + sailen) payload
  else fillRAI u flags plmn lac rac tac eci menbi emenbi offset payload

def fillCGI (u : Utils) (flags : Nat) (plmn : List Nat)
    (lac ci sac rac tac eci menbi emenbi : Nat)
    (offset : Nat) (payload : List Nat) : Option (List Nat × Nat) :=
  if flags &&& 0x01 = 1 then
    (copyInto payload offset (offset + 3) plmn).bind fun payload =>
    (PutUint16 payload (offset + 3) (offset + 5) lac).bind fun payload =>
    (PutUint16 payload (offset + 5) (offset + 7) ci).bind fun payload =>
    fillSAI u flags plmn lac sac rac tac eci menbi emenbi (offset + cgilen) payload
  else fillSAI u flags plmn lac sac rac tac eci menbi emenbi offset payload

/-- One conditional addition of `uliPayloadLen`, with the rest of the function
as `k`.  It only cuts `uliPayloadLen` into its eight steps. -/
def lenStep (c : Prop) [Decidable c] (n : Nat) (k : Nat → Nat) (l : Nat) : Nat :=
  if c then k (l + n) else k l

/-! ## Package utils and the framing, as the spec describes them -/

/-- The value of a decimal digit character, if it is one. -/
def digitOf (c : Char) : Option Nat :=
  if c.isDigit then some (c.toNat - 48) else none

/-- Modelled from the spec: `utils.EncodePLMN` is outside the sources at hand.
Section 4.1 of the spec: three decimal digits of MCC and two or three digits
of MNC are packed into three bytes, one digit per nibble, in nibble-swapped
positions, with the filler nibble `0xf` in place of the third MNC digit of a
two-digit MNC.  The position of that nibble is the one of the vector of
section 8 (`"123"`, `"45"` gives `21 f3 54`).  Any other input is an error. -/
def EncodePLMN (mcc mnc : String) : Except String (List Nat) :=
  match mcc.toList.mapM digitOf, mnc.toList.mapM digitOf with
  | some [c1, c2, c3], some [n1, n2] => .ok [c2 * 16 + c1, 0xf * 16 + c3, n2 * 16 + n1]
  | some [c1, c2, c3], some [n1, n2, n3] => .ok [c2 * 16 + c1, n3 * 16 + c3, n2 * 16 + n1]
  | _, _ => .error "invalid PLMN"

/-- Modelled from the spec: `utils.Uint32To24` is outside the sources at hand.
Section 3 of the spec: the tail of the macro-eNB kinds is a 3-byte truncated
identifier, that is the low 24 bits of the value, most significant byte
first. -/
def Uint32To24 (v : Nat) : List Nat :=
  [(v >>> 16) % 256, (v >>> 8) % 256, v % 256]

/-- Package `utils` as the spec describes it. -/
def utils : Utils := { EncodePLMN := EncodePLMN, Uint32To24 := Uint32To24 }

/-- Modelled from the spec: `Marshal` is outside the sources at hand.  Section
4.5 of the spec, for a type with Tag-Length-Value framing: the tag, then the
length of the payload as two bytes, most significant first, then the payload.
The vectors of section 8 for the location-information IE carry no instance
byte. -/
def Marshal (i : IE) : List Nat :=
  [i.Tag % 256] ++ be16 i.Payload.length ++ i.Payload

/-- Modelled from the spec: the leading payload byte of the location
information built by the v1 constructors, which are outside the sources at
hand.  Their test (v1/ies/ie_test.go, lines 152-159) and the vectors of
section 8 of the spec give `0x00` for the cell identity and `0x01` for the
service area. -/
def locTypeCGI : Nat := 0x00

/-- Modelled from the spec: see `locTypeCGI`. -/
def locTypeSAI : Nat := 0x01

/-- Modelled from the spec: the v1 constructor
`NewUserLocationInformationWithCGI(mcc, mnc, lac, ci)` is outside the sources
at hand; only its test (v1/ies/ie_test.go, lines 152-155) is there.  After the
vector of section 8 and the layout of a sub-record in section 3 of the spec,
the payload is the leading byte of the cell identity, the 3-byte network
identity, then `lac` and `ci` in two bytes each, most significant first.  A
malformed network identity gives no IE (section 7). -/
def NewUserLocationInformationWithCGI (u : Utils) (mcc mnc : String) (lac ci : Nat) :
    Option IE :=
  match u.EncodePLMN mcc mnc with
  | .error _ => none
  | .ok plmn => some (New UserLocationInformation 0x00
      ([locTypeCGI] ++ plmn ++ be16 lac ++ be16 ci))

/-- Modelled from the spec: the v1 constructor
`NewUserLocationInformationWithSAI(mcc, mnc, lac, sac)` is outside the sources
at hand; only its test (v1/ies/ie_test.go, lines 156-159) is there.  After the
vector of section 8 and the layout of a sub-record in section 3 of the spec,
the payload is the leading byte of the service area, the 3-byte network
identity, then `lac` and `sac` in two bytes each, most significant first.  A
malformed network identity gives no IE (section 7). -/
def NewUserLocationInformationWithSAI (u : Utils) (mcc mnc : String) (lac sac : Nat) :
    Option IE :=
  match u.EncodePLMN mcc mnc with
  | .error _ => none
  | .ok plmn => some (New UserLocationInformation 0x00
      ([locTypeSAI] ++ plmn ++ be16 lac ++ be16 sac))

/-- The number of set bits among the low eight bits of `flags`. -/
def popcount8 (flags : Nat) : Nat :=
  ((List.range 8).map fun k => (flags >>> k) &&& 0x01).sum

/-- The has-argument that `NewUserLocationInformationLazy` derives from one
of its `int` arguments. -/
def hasOf (x : Int) : Nat := if x ≥ 0 then 1 else 0

/-- An `int` argument passed on as an unsigned value: itself when it is not
negative, zero when it stands for an absent field. -/
def valueOf (x : Int) : Nat := if x ≥ 0 then x.toNat else 0

/-! ## Parse and the decoder of the payload, as the spec describes them -/

/-- Modelled from the spec: the framing kinds of section 4.2, Tag-Value with
the fixed length of the type and Tag-Length-Value. -/
inductive Framing where
  | TV (fixedLen : Nat)
  | TLV

/-- Modelled from the spec: the type registry of section 4.2 is outside the
sources at hand and the spec does not list it.  Only the entry of the
location-information IE, tag `0x98` with Tag-Length-Value framing (sections 6
and 8), is entered; any other tag is undefined. -/
def LookupType (tag : Nat) : Except String Framing :=
  if tag = UserLocationInformation then .ok Framing.TLV else .error "ErrUndefinedType"

/-- Modelled from the spec: `Parse` is outside the sources at hand.  Section
4.5 of the spec: read the tag and look up its framing; for Tag-Length-Value
read the two-byte length, require that many bytes to follow and slice exactly
that many as the payload, trailing bytes being no error; for Tag-Value slice
the fixed length of the type; fail with `ErrTooShort` when the buffer is too
short.  The registry is a parameter. -/
def Parse (lookup : Nat → Except String Framing) (b : List Nat) : Except String IE :=
  match b with
  | [] => .error "ErrTooShort"
  | tag :: rest =>
    match lookup tag with
    | .error e => .error e
    | .ok (Framing.TV n) =>
      if n ≤ rest.length then .ok (New tag 0x00 (rest.take n)) else .error "ErrTooShort"
    | .ok Framing.TLV =>
      match rest with
      | hi :: lo :: body =>
        if hi * 256 + lo ≤ body.length then .ok (New tag 0x00 (body.take (hi * 256 + lo)))
        else .error "ErrTooShort"
      | _ => .error "ErrTooShort"

/-- A sequence of bytes read as a number, most significant byte first. -/
def readBE (bs : List Nat) : Nat := bs.foldl (fun acc b => acc * 256 + b) 0

/-- Modelled from the spec: the decoded location information of section 4.4,
the presence mask and, for each kind, the fields of its sub-record when the
kind is present: the three bytes of the network identity and the values of
the tail. -/
structure ULIFields where
  Flags : Nat
  CGI : Option (List Nat × Nat × Nat)
  SAI : Option (List Nat × Nat × Nat)
  RAI : Option (List Nat × Nat × Nat)
  TAI : Option (List Nat × Nat)
  ECGI : Option (List Nat × Nat)
  LAI : Option (List Nat × Nat)
  MENBI : Option (List Nat × Nat)
  EMENBI : Option (List Nat × Nat)

/-- Modelled from the spec: one step of the decoder of section 4.4.  When the
bit of kind `k` is set, the sub-record is the `kindLen k` bytes at the running
offset, which then advances by `kindLen k`; the step fails with `ErrTooShort`
when fewer bytes remain.  When the bit is clear nothing is consumed. -/
def readRecord (p : List Nat) (flags k offset : Nat) :
    Except String (Option (List Nat) × Nat) :=
  if present flags k then
    if offset + kindLen k ≤ p.length then
      .ok (some ((p.drop offset).take (kindLen k)), offset + kindLen k)
    else .error "ErrTooShort"
  else .ok (none, offset)

/-- The fields of a sub-record with two 16-bit values after the network
identity. -/
def fieldsPair (r : List Nat) : List Nat × Nat × Nat :=
  (r.take 3, readBE ((r.drop 3).take 2), readBE ((r.drop 5).take 2))

/-- The fields of a sub-record with one value of `w` bytes after the network
identity. -/
def fieldsOne (w : Nat) (r : List Nat) : List Nat × Nat :=
  (r.take 3, readBE ((r.drop 3).take w))

/-- Modelled from the spec: the decoder of the location-information payload,
section 4.4, which the repository leaves open (`TODO: add getters`, uli.go line
160).  It reads the mask byte first, then the sub-records in ascending bit
order, each advancing the running offset by its fixed length, and leaves the
fields of the kinds whose bit is clear absent. -/
def Decode (p : List Nat) : Except String ULIFields :=
  match p with
  | [] => .error "ErrTooShort"
  | flags :: _ => do
    let r0 ← readRecord p flags 0 1
    let r1 ← readRecord p flags 1 r0.2
    let r2 ← readRecord p flags 2 r1.2
    let r3 ← readRecord p flags 3 r2.2
    let r4 ← readRecord p flags 4 r3.2
    let r5 ← readRecord p flags 5 r4.2
    let r6 ← readRecord p flags 6 r5.2
    let r7 ← readRecord p flags 7 r6.2
    return {
      Flags := flags
      CGI := r0.1.map fieldsPair
      SAI := r1.1.map fieldsPair
      RAI := r2.1.map fieldsPair
      TAI := r3.1.map (fieldsOne 2)
      ECGI := r4.1.map (fieldsOne 4)
      LAI := r5.1.map (fieldsOne 2)
      MENBI := r6.1.map (fieldsOne 3)
      EMENBI := r7.1.map (fieldsOne 3) }

/-! ## Lemmas on the primitives -/

theorem uliFill_eq_fillCGI (u : Utils) (flags : Nat) (plmn : List Nat)
    (lac ci sac rac tac eci menbi emenbi : Nat) (payload0 : List Nat) :
    uliFill u flags plmn lac ci sac rac tac eci menbi emenbi payload0
      = fillCGI u flags plmn lac ci sac rac tac eci menbi emenbi 1 payload0 := rfl

theorem padTo_length (k : Nat) (l : List Nat) : (padTo k l).length = k := by
  simp only [padTo, List.length_append, List.length_take, List.length_replicate]
  omega

theorem be16_length (v : Nat) : (be16 v).length = 2 := rfl

theorem be32_length (v : Nat) : (be32 v).length = 4 := rfl

theorem padTo_of_length_eq (k : Nat) (l : List Nat) (h : l.length = k) : padTo k l = l := by
  simp [padTo, h, List.take_of_length_le (le_of_eq h)]

theorem copyInto_zeros (acc src : List Nat) (r k lo hi : Nat) (hlo : lo = acc.length)
    (hhi : hi = lo + k) (hk : k ≤ r) :
    copyInto (acc ++ List.replicate r 0) lo hi src
      = some ((acc ++ padTo k src) ++ List.replicate (r - k) 0) := by
  subst hlo hhi
  have hc : acc.length ≤ acc.length + k ∧
      acc.length + k ≤ (acc ++ List.replicate r 0).length := by
    constructor
    · omega
    · simp; omega
  unfold copyInto
  rw [if_pos hc]
  simp only [Nat.add_sub_cancel_left, List.take_left', List.drop_append, List.drop_replicate,
    padTo, List.append_assoc, Option.some.injEq, List.append_cancel_left_eq]
  rcases Nat.le_total k src.length with h | h
  · rw [Nat.min_eq_left h, Nat.sub_eq_zero_of_le h]
    simp
  · rw [Nat.min_eq_right h, List.take_of_length_le h, List.take_of_length_le (le_refl _)]
    simp only [List.append_cancel_left_eq, List.append_replicate_replicate]
    congr 1
    omega

theorem PutUint16_zeros (acc : List Nat) (r lo hi v : Nat) (hlo : lo = acc.length)
    (hhi : hi = lo + 2) (hr : 2 ≤ r) :
    PutUint16 (acc ++ List.replicate r 0) lo hi v
      = some ((acc ++ be16 v) ++ List.replicate (r - 2) 0) := by
  subst hlo hhi
  have hc : acc.length ≤ acc.length + 2 ∧
      acc.length + 2 ≤ (acc ++ List.replicate r 0).length ∧
      2 ≤ acc.length + 2 - acc.length := by
    refine ⟨by omega, ?_, by omega⟩
    simp; omega
  unfold PutUint16
  rw [if_pos hc]
  simp [be16, List.take_left', List.drop_append, List.drop_replicate]

theorem PutUint32_zeros (acc : List Nat) (r lo hi v : Nat) (hlo : lo = acc.length)
    (hhi : hi = lo + 4) (hr : 4 ≤ r) :
    PutUint32 (acc ++ List.replicate r 0) lo hi v
      = some ((acc ++ be32 v) ++ List.replicate (r - 4) 0) := by
  subst hlo hhi
  have hc : acc.length ≤ acc.length + 4 ∧
      acc.length + 4 ≤ (acc ++ List.replicate r 0).length ∧
      4 ≤ acc.length + 4 - acc.length := by
    refine ⟨by omega, ?_, by omega⟩
    simp; omega
  unfold PutUint32
  rw [if_pos hc]
  simp [be32, List.take_left', List.drop_append, List.drop_replicate]

theorem lenFrom_zero (flags k : Nat) : lenFrom flags k 0 = 0 := rfl

/-! ## The blocks, from the last to the first -/

theorem fillEMENBI_spec (u : Utils) (flags : Nat) (plmn : List Nat)
    (lac ci sac rac tac eci menbi emenbi : Nat) (acc : List Nat) (r off : Nat)
    (hoff : off = acc.length) (hr : r = lenFrom flags 7 1) :
    fillEMENBI u flags plmn emenbi off (acc ++ List.replicate r 0)
      = some (acc ++ recordsFrom u flags plmn lac ci sac rac tac eci menbi emenbi 7 1, off) := by
  unfold fillEMENBI
  by_cases h : (flags >>> 7) &&& 0x01 = 1
  · have hp : present flags 7 := h
    have hr6 : r = 6 := by
      rw [hr]
      show optLen flags 7 + 0 = _
      rw [optLen, if_pos hp]
      rfl
    have e2 : recordsFrom u flags plmn lac ci sac rac tac eci menbi emenbi 7 1
        = padTo 3 plmn ++ padTo 3 (u.Uint32To24 emenbi) := by
      show optRecord u flags plmn lac ci sac rac tac eci menbi emenbi 7 ++ [] = _
      rw [optRecord, if_pos hp, List.append_nil]
      rfl
    rw [if_pos h, copyInto_zeros acc plmn r 3 off (off + 3) hoff rfl (by omega)]
    simp only [Option.some_bind]
    rw [copyInto_zeros (acc ++ padTo 3 plmn) (u.Uint32To24 emenbi) (r - 3) 3 (off + 3) (off + 6)
      (by simp [padTo_length, hoff]) rfl (by omega), e2, hr6]
    simp only [Option.some_bind, List.append_assoc, Nat.sub_self, Nat.reduceSub,
      List.replicate_zero, List.append_nil]
  · have hp : ¬ present flags 7 := h
    have hr0 : r = 0 := by
      rw [hr]
      show optLen flags 7 + 0 = _
      rw [optLen, if_neg hp]
    have e2 : recordsFrom u flags plmn lac ci sac rac tac eci menbi emenbi 7 1 = [] := by
      show optRecord u flags plmn lac ci sac rac tac eci menbi emenbi 7 ++ [] = _
      rw [optRecord, if_neg hp]
      rfl
    rw [if_neg h, e2, hr0]
    simp only [List.replicate_zero, List.append_nil]

theorem fillMENBI_spec (u : Utils) (flags : Nat) (plmn : List Nat)
    (lac ci sac rac tac eci menbi emenbi : Nat) (acc : List Nat) (r off : Nat)
    (hoff : off = acc.length) (hr : r = lenFrom flags 6 2) :
    fillMENBI u flags plmn menbi emenbi off (acc ++ List.replicate r 0)
      = some (acc ++ recordsFrom u flags plmn lac ci sac rac tac eci menbi emenbi 6 2,
          off + lenFrom flags 6 1) := by
  unfold fillMENBI
  by_cases h : (flags >>> 6) &&& 0x01 = 1
  · have hp : present flags 6 := h
    have hr1 : r = 6 + lenFrom flags 7 1 := by
      rw [hr]
      show optLen flags 6 + lenFrom flags 7 1 = _
      rw [optLen, if_pos hp]
      rfl
    have e1 : lenFrom flags 6 1 = menbilen + lenFrom flags 7 0 := by
      show optLen flags 6 + lenFrom flags 7 0 = _
      rw [optLen, if_pos hp]
      rfl
    have e2 : recordsFrom u flags plmn lac ci sac rac tac eci menbi emenbi 6 2
        = (padTo 3 plmn ++ padTo 3 (u.Uint32To24 menbi))
          ++ recordsFrom u flags plmn lac ci sac rac tac eci menbi emenbi 7 1 := by
      show optRecord u flags plmn lac ci sac rac tac eci menbi emenbi 6
          ++ recordsFrom u flags plmn lac ci sac rac tac eci menbi emenbi 7 1 = _
      rw [optRecord, if_pos hp]
      rfl
    rw [if_pos h, copyInto_zeros acc plmn r 3 off (off + 3) hoff rfl (by omega)]
    simp only [Option.some_bind]
    rw [copyInto_zeros (acc ++ padTo 3 plmn) (u.Uint32To24 menbi) (r - 3) 3 (off + 3) (off + 6)
      (by simp [padTo_length, be16_length, be32_length, hoff]) rfl (by omega)]
    simp only [Option.some_bind]
    rw [fillEMENBI_spec u flags plmn lac ci sac rac tac eci menbi emenbi
      (acc ++ padTo 3 plmn ++ padTo 3 (u.Uint32To24 menbi)) (r - 3 - 3) (off + menbilen)
      (by simp [padTo_length, be16_length, be32_length, hoff, menbilen]) (by omega), e1, e2]
    simp only [List.append_assoc, Nat.add_assoc, lenFrom_zero, Nat.add_zero]
  · have hp : ¬ present flags 6 := h
    have hr1 : r = lenFrom flags 7 1 := by
      rw [hr]
      show optLen flags 6 + lenFrom flags 7 1 = _
      rw [optLen, if_neg hp, Nat.zero_add]
    have e1 : lenFrom flags 6 1 = lenFrom flags 7 0 := by
      show optLen flags 6 + lenFrom flags 7 0 = _
      rw [optLen, if_neg hp, Nat.zero_add]
    have e2 : recordsFrom u flags plmn lac ci sac rac tac eci menbi emenbi 6 2
        = recordsFrom u flags plmn lac ci sac rac tac eci menbi emenbi 7 1 := by
      show optRecord u flags plmn lac ci sac rac tac eci menbi emenbi 6
          ++ recordsFrom u flags plmn lac ci sac rac tac eci menbi emenbi 7 1 = _
      rw [optRecord, if_neg hp, List.nil_append]
    rw [if_neg h, fillEMENBI_spec u flags plmn lac ci sac rac tac eci menbi emenbi acc r off hoff hr1, e1, e2]
    simp only [lenFrom_zero, Nat.add_zero]

theorem fillLAI_spec (u : Utils) (flags : Nat) (plmn : List Nat)
    (lac ci sac rac tac eci menbi emenbi : Nat) (acc : List Nat) (r off : Nat)
    (hoff : off = acc.length) (hr : r = lenFrom flags 5 3) :
    fillLAI u flags plmn lac menbi emenbi off (acc ++ List.replicate r 0)
      = some (acc ++ recordsFrom u flags plmn lac ci sac rac tac eci menbi emenbi 5 3,
          off + lenFrom flags 5 2) := by
  unfold fillLAI
  by_cases h : (flags >>> 5) &&& 0x01 = 1
  · have hp : present flags 5 := h
    have hr1 : r = 5 + lenFrom flags 6 2 := by
      rw [hr]
      show optLen flags 5 + lenFrom flags 6 2 = _
      rw [optLen, if_pos hp]
      rfl
    have e1 : lenFrom flags 5 2 = lailen + lenFrom flags 6 1 := by
      show optLen flags 5 + lenFrom flags 6 1 = _
      rw [optLen, if_pos hp]
      rfl
    have e2 : recordsFrom u flags plmn lac ci sac rac tac eci menbi emenbi 5 3
        = (padTo 3 plmn ++ be16 lac)
          ++ recordsFrom u flags plmn lac ci sac rac tac eci menbi emenbi 6 2 := by
      show optRecord u flags plmn lac ci sac rac tac eci menbi emenbi 5
          ++ recordsFrom u flags plmn lac ci sac rac tac eci menbi emenbi 6 2 = _
      rw [optRecord, if_pos hp]
      rfl
    rw [if_pos h, copyInto_zeros acc plmn r 3 off (off + 3) hoff rfl (by omega)]
    simp only [Option.some_bind]
    rw [PutUint16_zeros (acc ++ padTo 3 plmn) (r - 3) (off + 3) (off + 5) lac
      (by simp [padTo_length, be16_length, be32_length, hoff]) rfl (by omega)]
    simp only [Option.some_bind]
    rw [fillMENBI_spec u flags plmn lac ci sac rac tac eci menbi emenbi
      (acc ++ padTo 3 plmn ++ be16 lac) (r - 3 - 2) (off + lailen)
      (by simp [padTo_length, be16_length, be32_length, hoff, lailen]) (by omega), e1, e2]
    simp only [List.append_assoc, Nat.add_assoc]
  · have hp : ¬ present flags 5 := h
    have hr1 : r = lenFrom flags 6 2 := by
      rw [hr]
      show optLen flags 5 + lenFrom flags 6 2 = _
      rw [optLen, if_neg hp, Nat.zero_add]
    have e1 : lenFrom flags 5 2 = lenFrom flags 6 1 := by
      show optLen flags 5 + lenFrom flags 6 1 = _
      rw [optLen, if_neg hp, Nat.zero_add]
    have e2 : recordsFrom u flags plmn lac ci sac rac tac eci menbi emenbi 5 3
        = recordsFrom u flags plmn lac ci sac rac tac eci menbi emenbi 6 2 := by
      show optRecord u flags plmn lac ci sac rac tac eci menbi emenbi 5
          ++ recordsFrom u flags plmn lac ci sac rac tac eci menbi emenbi 6 2 = _
      rw [optRecord, if_neg hp, List.nil_append]
    rw [if_neg h, fillMENBI_spec u flags plmn lac ci sac rac tac eci menbi emenbi acc r off hoff hr1, e1, e2]

theorem fillECGI_spec (u : Utils) (flags : Nat) (plmn : List Nat)
    (lac ci sac rac tac eci menbi emenbi : Nat) (acc : List Nat) (r off : Nat)
    (hoff : off = acc.length) (hr : r = lenFrom flags 4 4) :
    fillECGI u flags plmn lac eci menbi emenbi off (acc ++ List.replicate r 0)
      = some (acc ++ recordsFrom u flags plmn lac ci sac rac tac eci menbi emenbi 4 4,
          off + lenFrom flags 4 3) := by
  unfold fillECGI
  by_cases h : (flags >>> 4) &&& 0x01 = 1
  · have hp : present flags 4 := h
    have hr1 : r = 7 + lenFrom flags 5 3 := by
      rw [hr]
      show optLen flags 4 + lenFrom flags 5 3 = _
      rw [optLen, if_pos hp]
      rfl
    have e1 : lenFrom flags 4 3 = ecgilen + lenFrom flags 5 2 := by
      show optLen flags 4 + lenFrom flags 5 2 = _
      rw [optLen, if_pos hp]
      rfl
    have e2 : recordsFrom u flags plmn lac ci sac rac tac eci menbi emenbi 4 4
        = (padTo 3 plmn ++ be32 (eci &&& 0xfffff))
          ++ recordsFrom u flags plmn lac ci sac rac tac eci menbi emenbi 5 3 := by
      show optRecord u flags plmn lac ci sac rac tac eci menbi emenbi 4
          ++ recordsFrom u flags plmn lac ci sac rac tac eci menbi emenbi 5 3 = _
      rw [optRecord, if_pos hp]
      rfl
    rw [if_pos h, copyInto_zeros acc plmn r 3 off (off + 3) hoff rfl (by omega)]
    simp only [Option.some_bind]
    rw [PutUint32_zeros (acc ++ padTo 3 plmn) (r - 3) (off + 3) (off + 7) (eci &&& 0xfffff)
      (by simp [padTo_length, be16_length, be32_length, hoff]) rfl (by omega)]
    simp only [Option.some_bind]
    rw [fillLAI_spec u flags plmn lac ci sac rac tac eci menbi emenbi
      (acc ++ padTo 3 plmn ++ be32 (eci &&& 0xfffff)) (r - 3 - 4) (off + ecgilen)
      (by simp [padTo_length, be16_length, be32_length, hoff, ecgilen]) (by omega), e1, e2]
    simp only [List.append_assoc, Nat.add_assoc]
  · have hp : ¬ present flags 4 := h
    have hr1 : r = lenFrom flags 5 3 := by
      rw [hr]
      show optLen flags 4 + lenFrom flags 5 3 = _
      rw [optLen, if_neg hp, Nat.zero_add]
    have e1 : lenFrom flags 4 3 = lenFrom flags 5 2 := by
      show optLen flags 4 + lenFrom flags 5 2 = _
      rw [optLen, if_neg hp, Nat.zero_add]
    have e2 : recordsFrom u flags plmn lac ci sac rac tac eci menbi emenbi 4 4
        = recordsFrom u flags plmn lac ci sac rac tac eci menbi emenbi 5 3 := by
      show optRecord u flags plmn lac ci sac rac tac eci menbi emenbi 4
          ++ recordsFrom u flags plmn lac ci sac rac tac eci menbi emenbi 5 3 = _
      rw [optRecord, if_neg hp, List.nil_append]
    rw [if_neg h, fillLAI_spec u flags plmn lac ci sac rac tac eci menbi emenbi acc r off hoff hr1, e1, e2]

theorem fillTAI_spec (u : Utils) (flags : Nat) (plmn : List Nat)
    (lac ci sac rac tac eci menbi emenbi : Nat) (acc : List Nat) (r off : Nat)
    (hoff : off = acc.length) (hr : r = lenFrom flags 3 5) :
    fillTAI u flags plmn lac tac eci menbi emenbi off (acc ++ List.replicate r 0)
      = some (acc ++ recordsFrom u flags plmn lac ci sac rac tac eci menbi emenbi 3 5,
          off + lenFrom flags 3 4) := by
  unfold fillTAI
  by_cases h : (flags >>> 3) &&& 0x01 = 1
  · have hp : present flags 3 := h
    have hr1 : r = 5 + lenFrom flags 4 4 := by
      rw [hr]
      show optLen flags 3 + lenFrom flags 4 4 = _
      rw [optLen, if_pos hp]
      rfl
    have e1 : lenFrom flags 3 4 = tailen + lenFrom flags 4 3 := by
      show optLen flags 3 + lenFrom flags 4 3 = _
      rw [optLen, if_pos hp]
      rfl
    have e2 : recordsFrom u flags plmn lac ci sac rac tac eci menbi emenbi 3 5
        = (padTo 3 plmn ++ be16 tac)
          ++ recordsFrom u flags plmn lac ci sac rac tac eci menbi emenbi 4 4 := by
      show optRecord u flags plmn lac ci sac rac tac eci menbi emenbi 3
          ++ recordsFrom u flags plmn lac ci sac rac tac eci menbi emenbi 4 4 = _
      rw [optRecord, if_pos hp]
      rfl
    rw [if_pos h, copyInto_zeros acc plmn r 3 off (off + 3) hoff rfl (by omega)]
    simp only [Option.some_bind]
    rw [PutUint16_zeros (acc ++ padTo 3 plmn) (r - 3) (off + 3) (off + 5) tac
      (by simp [padTo_length, be16_length, be32_length, hoff]) rfl (by omega)]
    simp only [Option.some_bind]
    rw [fillECGI_spec u flags plmn lac ci sac rac tac eci menbi emenbi
      (acc ++ padTo 3 plmn ++ be16 tac) (r - 3 - 2) (off + tailen)
      (by simp [padTo_length, be16_length, be32_length, hoff, tailen]) (by omega), e1, e2]
    simp only [List.append_assoc, Nat.add_assoc]
  · have hp : ¬ present flags 3 := h
    have hr1 : r = lenFrom flags 4 4 := by
      rw [hr]
      show optLen flags 3 + lenFrom flags 4 4 = _
      rw [optLen, if_neg hp, Nat.zero_add]
    have e1 : lenFrom flags 3 4 = lenFrom flags 4 3 := by
      show optLen flags 3 + lenFrom flags 4 3 = _
      rw [optLen, if_neg hp, Nat.zero_add]
    have e2 : recordsFrom u flags plmn lac ci sac rac tac eci menbi emenbi 3 5
        = recordsFrom u flags plmn lac ci sac rac tac eci menbi emenbi 4 4 := by
      show optRecord u flags plmn lac ci sac rac tac eci menbi emenbi 3
          ++ recordsFrom u flags plmn lac ci sac rac tac eci menbi emenbi 4 4 = _
      rw [optRecord, if_neg hp, List.nil_append]
    rw [if_neg h, fillECGI_spec u flags plmn lac ci sac rac tac eci menbi emenbi acc r off hoff hr1, e1, e2]

theorem fillRAI_spec (u : Utils) (flags : Nat) (plmn : List Nat)
    (lac ci sac rac tac eci menbi emenbi : Nat) (acc : List Nat) (r off : Nat)
    (hoff : off = acc.length) (hr : r = lenFrom flags 2 6) :
    fillRAI u flags plmn lac rac tac eci menbi emenbi off (acc ++ List.replicate r 0)
      = some (acc ++ recordsFrom u flags plmn lac ci sac rac tac eci menbi emenbi 2 6,
          off + lenFrom flags 2 5) := by
  unfold fillRAI
  by_cases h : (flags >>> 2) &&& 0x01 = 1
  · have hp : present flags 2 := h
    have hr1 : r = 7 + lenFrom flags 3 5 := by
      rw [hr]
      show optLen flags 2 + lenFrom flags 3 5 = _
      rw [optLen, if_pos hp]
      rfl
    have e1 : lenFrom flags 2 5 = railen + lenFrom flags 3 4 := by
      show optLen flags 2 + lenFrom flags 3 4 = _
      rw [optLen, if_pos hp]
      rfl
    have e2 : recordsFrom u flags plmn lac ci sac rac tac eci menbi emenbi 2 6
        = (padTo 3 plmn ++ be16 lac ++ be16 rac)
          ++ recordsFrom u flags plmn lac ci sac rac tac eci menbi emenbi 3 5 := by
      show optRecord u flags plmn lac ci sac rac tac eci menbi emenbi 2
          ++ recordsFrom u flags plmn lac ci sac rac tac eci menbi emenbi 3 5 = _
      rw [optRecord, if_pos hp]
      rfl
    rw [if_pos h, copyInto_zeros acc plmn r 3 off (off + 3) hoff rfl (by omega)]
    simp only [Option.some_bind]
    rw [PutUint16_zeros (acc ++ padTo 3 plmn) (r - 3) (off + 3) (off + 5) lac
      (by simp [padTo_length, be16_length, be32_length, hoff]) rfl (by omega)]
    simp only [Option.some_bind]
    rw [PutUint16_zeros (acc ++ padTo 3 plmn ++ be16 lac) (r - 3 - 2) (off + 5) (off + 7) rac
      (by simp [padTo_length, be16_length, be32_length, hoff]) rfl (by omega)]
    simp only [Option.some_bind]
    rw [fillTAI_spec u flags plmn lac ci sac rac tac eci menbi emenbi
      (acc ++ padTo 3 plmn ++ be16 lac ++ be16 rac) (r - 3 - 2 - 2) (off + railen)
      (by simp [padTo_length, be16_length, be32_length, hoff, railen]) (by omega), e1, e2]
    simp only [List.append_assoc, Nat.add_assoc]
  · have hp : ¬ present flags 2 := h
    have hr1 : r = lenFrom flags 3 5 := by
      rw [hr]
      show optLen flags 2 + lenFrom flags 3 5 = _
      rw [optLen, if_neg hp, Nat.zero_add]
    have e1 : lenFrom flags 2 5 = lenFrom flags 3 4 := by
      show optLen flags 2 + lenFrom flags 3 4 = _
      rw [optLen, if_neg hp, Nat.zero_add]
    have e2 : recordsFrom u flags plmn lac ci sac rac tac eci menbi emenbi 2 6
        = recordsFrom u flags plmn lac ci sac rac tac eci menbi emenbi 3 5 := by
      show optRecord u flags plmn lac ci sac rac tac eci menbi emenbi 2
          ++ recordsFrom u flags plmn lac ci sac rac tac eci menbi emenbi 3 5 = _
      rw [optRecord, if_neg hp, List.nil_append]
    rw [if_neg h, fillTAI_spec u flags plmn lac ci sac rac tac eci menbi emenbi acc r off hoff hr1, e1, e2]

theorem fillSAI_spec (u : Utils) (flags : Nat) (plmn : List Nat)
    (lac ci sac rac tac eci menbi emenbi : Nat) (acc : List Nat) (r off : Nat)
    (hoff : off = acc.length) (hr : r = lenFrom flags 1 7) :
    fillSAI u flags plmn lac sac rac tac eci menbi emenbi off (acc ++ List.replicate r 0)
      = some (acc ++ recordsFrom u flags plmn lac ci sac rac tac eci menbi emenbi 1 7,
          off + lenFrom flags 1 6) := by
  unfold fillSAI
  by_cases h : (flags >>> 1) &&& 0x01 = 1
  · have hp : present flags 1 := h
    have hr1 : r = 7 + lenFrom flags 2 6 := by
      rw [hr]
      show optLen flags 1 + lenFrom flags 2 6 = _
      rw [optLen, if_pos hp]
      rfl
    have e1 : lenFrom flags 1 6 = sailen + lenFrom flags 2 5 := by
      show optLen flags 1 + lenFrom flags 2 5 = _
      rw [optLen, if_pos hp]
      rfl
    have e2 : recordsFrom u flags plmn lac ci sac rac tac eci menbi emenbi 1 7
        = (padTo 3 plmn ++ be16 lac ++ be16 sac)
          ++ recordsFrom u flags plmn lac ci sac rac tac eci menbi emenbi 2 6 := by
      show optRecord u flags plmn lac ci sac rac tac eci menbi emenbi 1
          ++ recordsFrom u flags plmn lac ci sac rac tac eci menbi emenbi 2 6 = _
      rw [optRecord, if_pos hp]
      rfl
    rw [if_pos h, copyInto_zeros acc plmn r 3 off (off + 3) hoff rfl (by omega)]
    simp only [Option.some_bind]
    rw [PutUint16_zeros (acc ++ padTo 3 plmn) (r - 3) (off + 3) (off + 5) lac
      (by simp [padTo_length, be16_length, be32_length, hoff]) rfl (by omega)]
    simp only [Option.some_bind]
    rw [PutUint16_zeros (acc ++ padTo 3 plmn ++ be16 lac) (r - 3 - 2) (off + 5) (off + 7) sac
      (by simp [padTo_length, be16_length, be32_length, hoff]) rfl (by omega)]
    simp only [Option.some_bind]
    rw [fillRAI_spec u flags plmn lac ci sac rac tac eci menbi emenbi
      (acc ++ padTo 3 plmn ++ be16 lac ++ be16 sac) (r - 3 - 2 - 2) (off + sailen)
      (by simp [padTo_length, be16_length, be32_length, hoff, sailen]) (by omega), e1, e2]
    simp only [List.append_assoc, Nat.add_assoc]
  · have hp : ¬ present flags 1 := h
    have hr1 : r = lenFrom flags 2 6 := by
      rw [hr]
      show optLen flags 1 + lenFrom flags 2 6 = _
      rw [optLen, if_neg hp, Nat.zero_add]
    have e1 : lenFrom flags 1 6 = lenFrom flags 2 5 := by
      show optLen flags 1 + lenFrom flags 2 5 = _
      rw [optLen, if_neg hp, Nat.zero_add]
    have e2 : recordsFrom u flags plmn lac ci sac rac tac eci menbi emenbi 1 7
        = recordsFrom u flags plmn lac ci sac rac tac eci menbi emenbi 2 6 := by
      show optRecord u flags plmn lac ci sac rac tac eci menbi emenbi 1
          ++ recordsFrom u flags plmn lac ci sac rac tac eci menbi emenbi 2 6 = _
      rw [optRecord, if_neg hp, List.nil_append]
    rw [if_neg h, fillRAI_spec u flags plmn lac ci sac rac tac eci menbi emenbi acc r off hoff hr1, e1, e2]

theorem fillCGI_spec (u : Utils) (flags : Nat) (plmn : List Nat)
    (lac ci sac rac tac eci menbi emenbi : Nat) (acc : List Nat) (r off : Nat)
    (hoff : off = acc.length) (hr : r = lenFrom flags 0 8) :
    fillCGI u flags plmn lac ci sac rac tac eci menbi emenbi off (acc ++ List.replicate r 0)
      = some (acc ++ recordsFrom u flags plmn lac ci sac rac tac eci menbi emenbi 0 8,
          off + lenFrom flags 0 7) := by
  unfold fillCGI
  by_cases h : flags &&& 0x01 = 1
  · have hp : present flags 0 := h
    have hr1 : r = 7 + lenFrom flags 1 7 := by
      rw [hr]
      show optLen flags 0 + lenFrom flags 1 7 = _
      rw [optLen, if_pos hp]
      rfl
    have e1 : lenFrom flags 0 7 = cgilen + lenFrom flags 1 6 := by
      show optLen flags 0 + lenFrom flags 1 6 = _
      rw [optLen, if_pos hp]
      rfl
    have e2 : recordsFrom u flags plmn lac ci sac rac tac eci menbi emenbi 0 8
        = (padTo 3 plmn ++ be16 lac ++ be16 ci)
          ++ recordsFrom u flags plmn lac ci sac rac tac eci menbi emenbi 1 7 := by
      show optRecord u flags plmn lac ci sac rac tac eci menbi emenbi 0
          ++ recordsFrom u flags plmn lac ci sac rac tac eci menbi emenbi 1 7 = _
      rw [optRecord, if_pos hp]
      rfl
    rw [if_pos h, copyInto_zeros acc plmn r 3 off (off + 3) hoff rfl (by omega)]
    simp only [Option.some_bind]
    rw [PutUint16_zeros (acc ++ padTo 3 plmn) (r - 3) (off + 3) (off + 5) lac
      (by simp [padTo_length, be16_length, be32_length, hoff]) rfl (by omega)]
    simp only [Option.some_bind]
    rw [PutUint16_zeros (acc ++ padTo 3 plmn ++ be16 lac) (r - 3 - 2) (off + 5) (off + 7) ci
      (by simp [padTo_length, be16_length, be32_length, hoff]) rfl (by omega)]
    simp only [Option.some_bind]
    rw [fillSAI_spec u flags plmn lac ci sac rac tac eci menbi emenbi
      (acc ++ padTo 3 plmn ++ be16 lac ++ be16 ci) (r - 3 - 2 - 2) (off + cgilen)
      (by simp [padTo_length, be16_length, be32_length, hoff, cgilen]) (by omega), e1, e2]
    simp only [List.append_assoc, Nat.add_assoc]
  · have hp : ¬ present flags 0 := h
    have hr1 : r = lenFrom flags 1 7 := by
      rw [hr]
      show optLen flags 0 + lenFrom flags 1 7 = _
      rw [optLen, if_neg hp, Nat.zero_add]
    have e1 : lenFrom flags 0 7 = lenFrom flags 1 6 := by
      show optLen flags 0 + lenFrom flags 1 6 = _
      rw [optLen, if_neg hp, Nat.zero_add]
    have e2 : recordsFrom u flags plmn lac ci sac rac tac eci menbi emenbi 0 8
        = recordsFrom u flags plmn lac ci sac rac tac eci menbi emenbi 1 7 := by
      show optRecord u flags plmn lac ci sac rac tac eci menbi emenbi 0
          ++ recordsFrom u flags plmn lac ci sac rac tac eci menbi emenbi 1 7 = _
      rw [optRecord, if_neg hp, List.nil_append]
    rw [if_neg h, fillSAI_spec u flags plmn lac ci sac rac tac eci menbi emenbi acc r off hoff hr1, e1, e2]

theorem lenStep_eq (c : Prop) [Decidable c] (n : Nat) (k : Nat → Nat) (l : Nat) :
    lenStep c n k l = k (l + if c then n else 0) := by
  unfold lenStep
  split <;> simp

theorem uliPayloadLen_eq_lenStep (flags : Nat) :
    uliPayloadLen flags
      = lenStep (flags &&& 0x01 = 1) cgilen
          (lenStep ((flags >>> 1) &&& 0x01 = 1) sailen
          (lenStep ((flags >>> 2) &&& 0x01 = 1) railen
          (lenStep ((flags >>> 3) &&& 0x01 = 1) tailen
          (lenStep ((flags >>> 4) &&& 0x01 = 1) ecgilen
          (lenStep ((flags >>> 5) &&& 0x01 = 1) lailen
          (lenStep ((flags >>> 6) &&& 0x01 = 1) menbilen
          (lenStep ((flags >>> 7) &&& 0x01 = 1) emenbilen id))))))) 1 := rfl

theorem uliPayloadLen_eq (flags : Nat) : uliPayloadLen flags = 1 + lenFrom flags 0 8 := by
  have h8 : lenFrom flags 0 8 = optLen flags 0 + (optLen flags 1 + (optLen flags 2 +
      (optLen flags 3 + (optLen flags 4 + (optLen flags 5 + (optLen flags 6 +
      (optLen flags 7 + 0))))))) := rfl
  rw [uliPayloadLen_eq_lenStep, h8]
  simp only [lenStep_eq, optLen, present, kindLen, Nat.shiftRight_zero, id]
  omega

theorem setIndex_make (n b : Nat) :
    setIndex (make (1 + n)) 0 b = some ([b] ++ List.replicate n 0) := by
  simp [setIndex, make, Nat.add_comm 1 n, List.replicate_succ]

theorem NewUserLocationInformation_ok (u : Utils)
    (hasCGI hasSAI hasRAI hasTAI hasECGI hasLAI hasMENBI hasEMENBI : Nat)
    (mcc mnc : String) (lac ci sac rac tac eci menbi emenbi : Nat) (plmn : List Nat)
    (hplmn : u.EncodePLMN mcc mnc = .ok plmn) :
    NewUserLocationInformation u hasCGI hasSAI hasRAI hasTAI hasECGI hasLAI hasMENBI hasEMENBI
        mcc mnc lac ci sac rac tac eci menbi emenbi
      = some (some (New UserLocationInformation 0x00
          (uliLayout u (uliFlags hasCGI hasSAI hasRAI hasTAI hasECGI hasLAI hasMENBI hasEMENBI)
            plmn lac ci sac rac tac eci menbi emenbi))) := by
  unfold NewUserLocationInformation
  simp only [uliPayloadLen_eq, setIndex_make, hplmn, uliFill_eq_fillCGI, Option.bind_eq_bind,
    Option.some_bind]
  rw [fillCGI_spec u _ plmn lac ci sac rac tac eci menbi emenbi [_] _ 1 rfl rfl]
  rfl

theorem NewUserLocationInformation_err (u : Utils)
    (hasCGI hasSAI hasRAI hasTAI hasECGI hasLAI hasMENBI hasEMENBI : Nat)
    (mcc mnc : String) (lac ci sac rac tac eci menbi emenbi : Nat) (e : String)
    (hplmn : u.EncodePLMN mcc mnc = .error e) :
    NewUserLocationInformation u hasCGI hasSAI hasRAI hasTAI hasECGI hasLAI hasMENBI hasEMENBI
        mcc mnc lac ci sac rac tac eci menbi emenbi = some none := by
  unfold NewUserLocationInformation
  simp only [uliPayloadLen_eq, setIndex_make, hplmn, Option.bind_eq_bind, Option.some_bind]
  rfl

/-! ## The presence mask -/

theorem uliFlags_bits (b0 b1 b2 b3 b4 b5 b6 b7 : Nat) (h0 : b0 < 2) (h1 : b1 < 2)
    (h2 : b2 < 2) (h3 : b3 < 2) (h4 : b4 < 2) (h5 : b5 < 2) (h6 : b6 < 2) (h7 : b7 < 2) :
    uliFlags b0 b1 b2 b3 b4 b5 b6 b7
      = b0 + 2 * b1 + 4 * b2 + 8 * b3 + 16 * b4 + 32 * b5 + 64 * b6 + 128 * b7 := by
  interval_cases b0 <;> interval_cases b1 <;> interval_cases b2 <;> interval_cases b3 <;>
    interval_cases b4 <;> interval_cases b5 <;> interval_cases b6 <;> interval_cases b7 <;> rfl

theorem uliFlags_mod (h0 h1 h2 h3 h4 h5 h6 h7 : Nat) :
    uliFlags h0 h1 h2 h3 h4 h5 h6 h7
      = uliFlags (h0 % 2) (h1 % 2) (h2 % 2) (h3 % 2) (h4 % 2) (h5 % 2) (h6 % 2) (h7 % 2) := by
  simp only [uliFlags, Nat.and_one_is_mod, Nat.mod_mod]

theorem uliFlags_eq_sum (h0 h1 h2 h3 h4 h5 h6 h7 : Nat) :
    uliFlags h0 h1 h2 h3 h4 h5 h6 h7
      = h0 % 2 + 2 * (h1 % 2) + 4 * (h2 % 2) + 8 * (h3 % 2) + 16 * (h4 % 2) + 32 * (h5 % 2)
        + 64 * (h6 % 2) + 128 * (h7 % 2) := by
  have two : 0 < 2 := by decide
  rw [uliFlags_mod]
  exact uliFlags_bits _ _ _ _ _ _ _ _ (Nat.mod_lt _ two) (Nat.mod_lt _ two) (Nat.mod_lt _ two)
    (Nat.mod_lt _ two) (Nat.mod_lt _ two) (Nat.mod_lt _ two) (Nat.mod_lt _ two)
    (Nat.mod_lt _ two)

theorem present_iff (flags k : Nat) : present flags k ↔ flags / 2 ^ k % 2 = 1 := by
  unfold present
  rw [Nat.and_one_is_mod, Nat.shiftRight_eq_div_pow]

theorem present_iff_testBit (flags k : Nat) : present flags k ↔ flags.testBit k = true := by
  rw [present_iff, Nat.testBit_to_div_mod, decide_eq_true_eq]

theorem present_uliFlags (h0 h1 h2 h3 h4 h5 h6 h7 : Nat) :
    (present (uliFlags h0 h1 h2 h3 h4 h5 h6 h7) 0 ↔ h0 % 2 = 1) ∧
    (present (uliFlags h0 h1 h2 h3 h4 h5 h6 h7) 1 ↔ h1 % 2 = 1) ∧
    (present (uliFlags h0 h1 h2 h3 h4 h5 h6 h7) 2 ↔ h2 % 2 = 1) ∧
    (present (uliFlags h0 h1 h2 h3 h4 h5 h6 h7) 3 ↔ h3 % 2 = 1) ∧
    (present (uliFlags h0 h1 h2 h3 h4 h5 h6 h7) 4 ↔ h4 % 2 = 1) ∧
    (present (uliFlags h0 h1 h2 h3 h4 h5 h6 h7) 5 ↔ h5 % 2 = 1) ∧
    (present (uliFlags h0 h1 h2 h3 h4 h5 h6 h7) 6 ↔ h6 % 2 = 1) ∧
    (present (uliFlags h0 h1 h2 h3 h4 h5 h6 h7) 7 ↔ h7 % 2 = 1) := by
  simp only [present_iff, uliFlags_eq_sum, Nat.reducePow]
  refine ⟨?_, ?_, ?_, ?_, ?_, ?_, ?_, ?_⟩ <;> omega

theorem uliFlags_lt (h0 h1 h2 h3 h4 h5 h6 h7 : Nat) :
    uliFlags h0 h1 h2 h3 h4 h5 h6 h7 < 256 := by
  rw [uliFlags_eq_sum]
  omega

/-! ## Lengths and positions in the layout -/

theorem kindRecord_length (u : Utils) (plmn : List Nat)
    (lac ci sac rac tac eci menbi emenbi : Nat) (k : Nat) :
    (kindRecord u plmn lac ci sac rac tac eci menbi emenbi k).length = kindLen k := by
  rcases k with _ | _ | _ | _ | _ | _ | _ | _ | k <;>
    simp [kindRecord, kindLen, padTo_length, be16_length, be32_length, cgilen, sailen, railen,
      tailen, ecgilen, lailen, menbilen, emenbilen]

theorem optRecord_length (u : Utils) (flags : Nat) (plmn : List Nat)
    (lac ci sac rac tac eci menbi emenbi : Nat) (k : Nat) :
    (optRecord u flags plmn lac ci sac rac tac eci menbi emenbi k).length = optLen flags k := by
  unfold optRecord optLen
  split
  · exact kindRecord_length u plmn lac ci sac rac tac eci menbi emenbi k
  · rfl

theorem recordsFrom_length (u : Utils) (flags : Nat) (plmn : List Nat)
    (lac ci sac rac tac eci menbi emenbi : Nat) (k n : Nat) :
    (recordsFrom u flags plmn lac ci sac rac tac eci menbi emenbi k n).length
      = lenFrom flags k n := by
  induction n generalizing k with
  | zero => rfl
  | succ n ih =>
    rw [recordsFrom, lenFrom, List.length_append, optRecord_length, ih]

theorem recordsFrom_append (u : Utils) (flags : Nat) (plmn : List Nat)
    (lac ci sac rac tac eci menbi emenbi : Nat) (k m n : Nat) :
    recordsFrom u flags plmn lac ci sac rac tac eci menbi emenbi k (m + n)
      = recordsFrom u flags plmn lac ci sac rac tac eci menbi emenbi k m
        ++ recordsFrom u flags plmn lac ci sac rac tac eci menbi emenbi (k + m) n := by
  induction m generalizing k with
  | zero => simp [recordsFrom]
  | succ m ih =>
    rw [Nat.add_right_comm, recordsFrom, recordsFrom, ih, List.append_assoc,
      Nat.add_assoc k 1 m, Nat.add_comm 1 m]

theorem uliLayout_length (u : Utils) (flags : Nat) (plmn : List Nat)
    (lac ci sac rac tac eci menbi emenbi : Nat) :
    (uliLayout u flags plmn lac ci sac rac tac eci menbi emenbi).length
      = uliPayloadLen flags := by
  rw [uliLayout, List.length_cons, recordsFrom_length, uliPayloadLen_eq, Nat.add_comm]

/-- The sub-record of a present kind `k` sits in the layout right after the
mask byte and the sub-records of the present kinds below `k`. -/
theorem uliLayout_slice (u : Utils) (flags : Nat) (plmn : List Nat)
    (lac ci sac rac tac eci menbi emenbi : Nat) (k : Nat) (hk : k < 8)
    (hp : present flags k) :
    ((uliLayout u flags plmn lac ci sac rac tac eci menbi emenbi).drop
        (1 + lenFrom flags 0 k)).take (kindLen k)
      = kindRecord u plmn lac ci sac rac tac eci menbi emenbi k := by
  obtain ⟨n, hn⟩ : ∃ n, 8 = k + (1 + n) := ⟨7 - k, by omega⟩
  have h1 : recordsFrom u flags plmn lac ci sac rac tac eci menbi emenbi 0 8
      = recordsFrom u flags plmn lac ci sac rac tac eci menbi emenbi 0 k
        ++ (kindRecord u plmn lac ci sac rac tac eci menbi emenbi k
        ++ recordsFrom u flags plmn lac ci sac rac tac eci menbi emenbi (k + 1) n) := by
    rw [hn, recordsFrom_append, Nat.zero_add, Nat.add_comm 1 n, recordsFrom, optRecord,
      if_pos hp]
  rw [uliLayout, h1, Nat.add_comm 1, List.drop_succ_cons,
    ← recordsFrom_length u flags plmn lac ci sac rac tac eci menbi emenbi 0 k,
    List.drop_left, ← kindRecord_length u plmn lac ci sac rac tac eci menbi emenbi k,
    List.take_left]

theorem uliPayloadLen_testBit (flags : Nat) :
    uliPayloadLen flags
      = 1 + (if flags.testBit 0 then 7 else 0) + (if flags.testBit 1 then 7 else 0)
          + (if flags.testBit 2 then 7 else 0) + (if flags.testBit 3 then 5 else 0)
          + (if flags.testBit 4 then 7 else 0) + (if flags.testBit 5 then 5 else 0)
          + (if flags.testBit 6 then 6 else 0) + (if flags.testBit 7 then 6 else 0) := by
  have h8 : lenFrom flags 0 8 = optLen flags 0 + (optLen flags 1 + (optLen flags 2 +
      (optLen flags 3 + (optLen flags 4 + (optLen flags 5 + (optLen flags 6 +
      (optLen flags 7 + 0))))))) := rfl
  rw [uliPayloadLen_eq, h8]
  simp only [optLen, present_iff_testBit, kindLen, cgilen, sailen, railen, tailen, ecgilen,
    lailen, menbilen, emenbilen]
  omega

/-- Every value of the flags byte is the mask of some has-arguments: the bits
of the value itself. -/
theorem uliFlags_surjective (f : Nat) (hf : f < 256) :
    uliFlags (f % 2) (f / 2 % 2) (f / 4 % 2) (f / 8 % 2) (f / 16 % 2) (f / 32 % 2)
      (f / 64 % 2) (f / 128 % 2) = f := by
  rw [uliFlags_eq_sum]
  omega

/-! ## C1: the payload length is a function of the flags -/

/-- C1: for has-arguments whose mask is `flags` (every byte value is such a
mask, `uliFlags_surjective`) and for every `mcc`, `mnc` and field values with
`utils.EncodePLMN` succeeding, `NewUserLocationInformation` returns an IE whose
payload has length `uliPayloadLen flags`, which is 1 plus the fixed lengths
7, 7, 7, 5, 7, 5, 6, 6 of the kinds CGI, SAI, RAI, TAI, ECGI, LAI, MENBI,
EMENBI whose bit (0 to 7) is set in `flags`. -/
theorem NewUserLocationInformation_payload_length (u : Utils) (flags : Nat)
    (hasCGI hasSAI hasRAI hasTAI hasECGI hasLAI hasMENBI hasEMENBI : Nat)
    (hflags : uliFlags hasCGI hasSAI hasRAI hasTAI hasECGI hasLAI hasMENBI hasEMENBI = flags)
    (mcc mnc : String) (lac ci sac rac tac eci menbi emenbi : Nat) (plmn : List Nat)
    (hplmn : u.EncodePLMN mcc mnc = .ok plmn) :
    ∃ ie, NewUserLocationInformation u hasCGI hasSAI hasRAI hasTAI hasECGI hasLAI hasMENBI hasEMENBI
        mcc mnc lac ci sac rac tac eci menbi emenbi = some (some ie) ∧
      ie.Payload.length = uliPayloadLen flags ∧
      uliPayloadLen flags
        = 1 + (if flags.testBit 0 then 7 else 0) + (if flags.testBit 1 then 7 else 0)
            + (if flags.testBit 2 then 7 else 0) + (if flags.testBit 3 then 5 else 0)
            + (if flags.testBit 4 then 7 else 0) + (if flags.testBit 5 then 5 else 0)
            + (if flags.testBit 6 then 6 else 0) + (if flags.testBit 7 then 6 else 0) := by
  refine ⟨_, NewUserLocationInformation_ok u hasCGI hasSAI hasRAI hasTAI hasECGI hasLAI hasMENBI hasEMENBI
    mcc mnc lac ci sac rac tac eci menbi emenbi plmn hplmn, ?_, uliPayloadLen_testBit flags⟩
  rw [hflags]
  exact uliLayout_length u flags plmn lac ci sac rac tac eci menbi emenbi

theorem NewUserLocationInformation_payload_length_witness :
    uliFlags 1 0 1 1 0 0 1 0 = 0x4d ∧
    utils.EncodePLMN "123" "45" = .ok [0x21, 0xf3, 0x54] ∧
    ∃ ie, NewUserLocationInformation utils 1 0 1 1 0 0 1 0
        "123" "45" 0xff 1 2 3 4 5 6 7 = some (some ie) ∧
      ie.Payload.length = uliPayloadLen 0x4d ∧
      uliPayloadLen 0x4d
        = 1 + (if Nat.testBit 0x4d 0 then 7 else 0) + (if Nat.testBit 0x4d 1 then 7 else 0)
            + (if Nat.testBit 0x4d 2 then 7 else 0) + (if Nat.testBit 0x4d 3 then 5 else 0)
            + (if Nat.testBit 0x4d 4 then 7 else 0) + (if Nat.testBit 0x4d 5 then 5 else 0)
            + (if Nat.testBit 0x4d 6 then 6 else 0) + (if Nat.testBit 0x4d 7 then 6 else 0) :=
  ⟨rfl, rfl, NewUserLocationInformation_payload_length utils 0x4d 1 0 1 1 0 0 1 0 rfl
    "123" "45" 0xff 1 2 3 4 5 6 7 [0x21, 0xf3, 0x54] rfl⟩

/-! ## C2: the sub-records stand in ascending bit order -/

/-- C2: whenever `utils.EncodePLMN` succeeds, for all has-arguments and field
values, the payload is the mask byte followed by the sub-records of the present
kinds in ascending bit order, and the sub-record of every present kind `k`
occupies the `kindLen k` bytes at payload offset 1 plus the fixed lengths of
the present kinds with a bit index below `k`. -/
theorem NewUserLocationInformation_record_offset (u : Utils)
    (hasCGI hasSAI hasRAI hasTAI hasECGI hasLAI hasMENBI hasEMENBI : Nat)
    (mcc mnc : String) (lac ci sac rac tac eci menbi emenbi : Nat) (plmn : List Nat)
    (hplmn : u.EncodePLMN mcc mnc = .ok plmn) (k : Nat) (hk : k < 8)
    (hp : present (uliFlags hasCGI hasSAI hasRAI hasTAI hasECGI hasLAI hasMENBI hasEMENBI) k) :
    ∃ ie, NewUserLocationInformation u hasCGI hasSAI hasRAI hasTAI hasECGI hasLAI hasMENBI hasEMENBI
        mcc mnc lac ci sac rac tac eci menbi emenbi = some (some ie) ∧
      ie.Payload = uliFlags hasCGI hasSAI hasRAI hasTAI hasECGI hasLAI hasMENBI hasEMENBI
        :: recordsFrom u (uliFlags hasCGI hasSAI hasRAI hasTAI hasECGI hasLAI hasMENBI hasEMENBI)
            plmn lac ci sac rac tac eci menbi emenbi 0 8 ∧
      (ie.Payload.drop
          (1 + lenFrom (uliFlags hasCGI hasSAI hasRAI hasTAI hasECGI hasLAI hasMENBI hasEMENBI) 0 k)).take
          (kindLen k)
        = kindRecord u plmn lac ci sac rac tac eci menbi emenbi k :=
  ⟨_, NewUserLocationInformation_ok u hasCGI hasSAI hasRAI hasTAI hasECGI hasLAI hasMENBI hasEMENBI
    mcc mnc lac ci sac rac tac eci menbi emenbi plmn hplmn, rfl,
    uliLayout_slice u _ plmn lac ci sac rac tac eci menbi emenbi k hk hp⟩

theorem NewUserLocationInformation_record_offset_witness :
    utils.EncodePLMN "123" "45" = .ok [0x21, 0xf3, 0x54] ∧ 3 < 8 ∧
    present (uliFlags 1 0 1 1 0 0 1 0) 3 ∧
    ∃ ie, NewUserLocationInformation utils 1 0 1 1 0 0 1 0
        "123" "45" 0xff 1 2 3 4 5 6 7 = some (some ie) ∧
      ie.Payload = uliFlags 1 0 1 1 0 0 1 0
        :: recordsFrom utils (uliFlags 1 0 1 1 0 0 1 0)
            [0x21, 0xf3, 0x54] 0xff 1 2 3 4 5 6 7 0 8 ∧
      (ie.Payload.drop (1 + lenFrom (uliFlags 1 0 1 1 0 0 1 0) 0 3)).take (kindLen 3)
        = kindRecord utils [0x21, 0xf3, 0x54] 0xff 1 2 3 4 5 6 7 3 :=
  ⟨rfl, by decide, by decide,
    NewUserLocationInformation_record_offset utils 1 0 1 1 0 0 1 0 "123" "45"
      0xff 1 2 3 4 5 6 7 [0x21, 0xf3, 0x54] rfl 3 (by decide) (by decide)⟩

/-! ## C3: the mask byte -/

theorem uliFlags_or_bits (b0 b1 b2 b3 b4 b5 b6 b7 : Nat) (h0 : b0 < 2) (h1 : b1 < 2)
    (h2 : b2 < 2) (h3 : b3 < 2) (h4 : b4 < 2) (h5 : b5 < 2) (h6 : b6 < 2) (h7 : b7 < 2) :
    uliFlags b0 b1 b2 b3 b4 b5 b6 b7
      = (b7 <<< 7) ||| (b6 <<< 6) ||| (b5 <<< 5) ||| (b4 <<< 4) ||| (b3 <<< 3) ||| (b2 <<< 2)
        ||| (b1 <<< 1) ||| b0 := by
  interval_cases b0 <;> interval_cases b1 <;> interval_cases b2 <;> interval_cases b3 <;>
    interval_cases b4 <;> interval_cases b5 <;> interval_cases b6 <;> interval_cases b7 <;> rfl

theorem uliFlags_eq_or (h0 h1 h2 h3 h4 h5 h6 h7 : Nat) :
    uliFlags h0 h1 h2 h3 h4 h5 h6 h7
      = ((h7 &&& 0x01) <<< 7) ||| ((h6 &&& 0x01) <<< 6) ||| ((h5 &&& 0x01) <<< 5)
        ||| ((h4 &&& 0x01) <<< 4) ||| ((h3 &&& 0x01) <<< 3) ||| ((h2 &&& 0x01) <<< 2)
        ||| ((h1 &&& 0x01) <<< 1) ||| (h0 &&& 0x01) := by
  have two : 0 < 2 := by decide
  rw [uliFlags_mod]
  simp only [Nat.and_one_is_mod]
  exact uliFlags_or_bits _ _ _ _ _ _ _ _ (Nat.mod_lt _ two) (Nat.mod_lt _ two)
    (Nat.mod_lt _ two) (Nat.mod_lt _ two) (Nat.mod_lt _ two) (Nat.mod_lt _ two)
    (Nat.mod_lt _ two) (Nat.mod_lt _ two)

/-- C3: whenever `utils.EncodePLMN` succeeds, byte 0 of the payload returned by
`NewUserLocationInformation` is the presence mask: the OR of `(has_k & 1) << k`,
a byte whose bit `k` is set exactly when the least significant bit of the
has-argument of kind `k` is 1 (bit 0 CGI, 1 SAI, 2 RAI, 3 TAI, 4 ECGI, 5 LAI,
6 MENBI, 7 EMENBI); for has-arguments that are all 0 or 1, bit `k` is set
exactly when the has-argument is 1. -/
theorem NewUserLocationInformation_mask_byte (u : Utils)
    (hasCGI hasSAI hasRAI hasTAI hasECGI hasLAI hasMENBI hasEMENBI : Nat)
    (mcc mnc : String) (lac ci sac rac tac eci menbi emenbi : Nat) (plmn : List Nat)
    (hplmn : u.EncodePLMN mcc mnc = .ok plmn) :
    ∃ rest, NewUserLocationInformation u hasCGI hasSAI hasRAI hasTAI hasECGI hasLAI hasMENBI hasEMENBI
        mcc mnc lac ci sac rac tac eci menbi emenbi
        = some (some (New UserLocationInformation 0x00
            (uliFlags hasCGI hasSAI hasRAI hasTAI hasECGI hasLAI hasMENBI hasEMENBI :: rest))) ∧
      uliFlags hasCGI hasSAI hasRAI hasTAI hasECGI hasLAI hasMENBI hasEMENBI
        = ((hasEMENBI &&& 0x01) <<< 7) ||| ((hasMENBI &&& 0x01) <<< 6)
          ||| ((hasLAI &&& 0x01) <<< 5) ||| ((hasECGI &&& 0x01) <<< 4)
          ||| ((hasTAI &&& 0x01) <<< 3) ||| ((hasRAI &&& 0x01) <<< 2)
          ||| ((hasSAI &&& 0x01) <<< 1) ||| (hasCGI &&& 0x01) ∧
      uliFlags hasCGI hasSAI hasRAI hasTAI hasECGI hasLAI hasMENBI hasEMENBI < 256 ∧
      ((uliFlags hasCGI hasSAI hasRAI hasTAI hasECGI hasLAI hasMENBI hasEMENBI).testBit 0 = true
        ↔ hasCGI % 2 = 1) ∧
      ((uliFlags hasCGI hasSAI hasRAI hasTAI hasECGI hasLAI hasMENBI hasEMENBI).testBit 1 = true
        ↔ hasSAI % 2 = 1) ∧
      ((uliFlags hasCGI hasSAI hasRAI hasTAI hasECGI hasLAI hasMENBI hasEMENBI).testBit 2 = true
        ↔ hasRAI % 2 = 1) ∧
      ((uliFlags hasCGI hasSAI hasRAI hasTAI hasECGI hasLAI hasMENBI hasEMENBI).testBit 3 = true
        ↔ hasTAI % 2 = 1) ∧
      ((uliFlags hasCGI hasSAI hasRAI hasTAI hasECGI hasLAI hasMENBI hasEMENBI).testBit 4 = true
        ↔ hasECGI % 2 = 1) ∧
      ((uliFlags hasCGI hasSAI hasRAI hasTAI hasECGI hasLAI hasMENBI hasEMENBI).testBit 5 = true
        ↔ hasLAI % 2 = 1) ∧
      ((uliFlags hasCGI hasSAI hasRAI hasTAI hasECGI hasLAI hasMENBI hasEMENBI).testBit 6 = true
        ↔ hasMENBI % 2 = 1) ∧
      ((uliFlags hasCGI hasSAI hasRAI hasTAI hasECGI hasLAI hasMENBI hasEMENBI).testBit 7 = true
        ↔ hasEMENBI % 2 = 1) ∧
      (hasCGI ≤ 1 ∧ hasSAI ≤ 1 ∧ hasRAI ≤ 1 ∧ hasTAI ≤ 1 ∧ hasECGI ≤ 1 ∧ hasLAI ≤ 1 ∧ hasMENBI ≤ 1 ∧ hasEMENBI ≤ 1 →
        ((uliFlags hasCGI hasSAI hasRAI hasTAI hasECGI hasLAI hasMENBI hasEMENBI).testBit 0 = true
          ↔ hasCGI = 1) ∧
        ((uliFlags hasCGI hasSAI hasRAI hasTAI hasECGI hasLAI hasMENBI hasEMENBI).testBit 1 = true
          ↔ hasSAI = 1) ∧
        ((uliFlags hasCGI hasSAI hasRAI hasTAI hasECGI hasLAI hasMENBI hasEMENBI).testBit 2 = true
          ↔ hasRAI = 1) ∧
        ((uliFlags hasCGI hasSAI hasRAI hasTAI hasECGI hasLAI hasMENBI hasEMENBI).testBit 3 = true
          ↔ hasTAI = 1) ∧
        ((uliFlags hasCGI hasSAI hasRAI hasTAI hasECGI hasLAI hasMENBI hasEMENBI).testBit 4 = true
          ↔ hasECGI = 1) ∧
        ((uliFlags hasCGI hasSAI hasRAI hasTAI hasECGI hasLAI hasMENBI hasEMENBI).testBit 5 = true
          ↔ hasLAI = 1) ∧
        ((uliFlags hasCGI hasSAI hasRAI hasTAI hasECGI hasLAI hasMENBI hasEMENBI).testBit 6 = true
          ↔ hasMENBI = 1) ∧
        ((uliFlags hasCGI hasSAI hasRAI hasTAI hasECGI hasLAI hasMENBI hasEMENBI).testBit 7 = true
          ↔ hasEMENBI = 1)) := by
  have hb := present_uliFlags hasCGI hasSAI hasRAI hasTAI hasECGI hasLAI hasMENBI hasEMENBI
  simp only [present_iff_testBit] at hb
  obtain ⟨b0, b1, b2, b3, b4, b5, b6, b7⟩ := hb
  refine ⟨_, NewUserLocationInformation_ok u hasCGI hasSAI hasRAI hasTAI hasECGI hasLAI hasMENBI hasEMENBI
    mcc mnc lac ci sac rac tac eci menbi emenbi plmn hplmn, uliFlags_eq_or _ _ _ _ _ _ _ _,
    uliFlags_lt _ _ _ _ _ _ _ _, b0, b1, b2, b3, b4, b5, b6, b7, ?_⟩
  rintro ⟨l0, l1, l2, l3, l4, l5, l6, l7⟩
  rw [b0, b1, b2, b3, b4, b5, b6, b7]
  omega

theorem NewUserLocationInformation_mask_byte_witness :
    utils.EncodePLMN "123" "45" = .ok [0x21, 0xf3, 0x54] ∧
    ∃ rest, NewUserLocationInformation utils 1 0 1 1 0 0 1 0
        "123" "45" 0xff 1 2 3 4 5 6 7
        = some (some (New UserLocationInformation 0x00 (0x4d :: rest))) :=
  ⟨rfl, (NewUserLocationInformation_mask_byte utils 1 0 1 1 0 0 1 0 "123" "45"
    0xff 1 2 3 4 5 6 7 [0x21, 0xf3, 0x54] rfl).imp fun _ h => h.1⟩

/-! ## The fields of absent kinds -/

theorem recordsFrom_congr (u : Utils) (flags : Nat) (plmn : List Nat)
    (lac ci sac rac tac eci menbi emenbi : Nat) (lac2 ci2 sac2 rac2 tac2 eci2 menbi2 emenbi2 : Nat) (n : Nat) :
    ∀ k, (∀ j, k ≤ j → j < k + n → present flags j →
        kindRecord u plmn lac ci sac rac tac eci menbi emenbi j
          = kindRecord u plmn lac2 ci2 sac2 rac2 tac2 eci2 menbi2 emenbi2 j) →
      recordsFrom u flags plmn lac ci sac rac tac eci menbi emenbi k n
        = recordsFrom u flags plmn lac2 ci2 sac2 rac2 tac2 eci2 menbi2 emenbi2 k n := by
  induction n with
  | zero => intro k _; rfl
  | succ n ih =>
    intro k h
    rw [recordsFrom, recordsFrom, ih (k + 1) (fun j h1 h2 => h j (by omega) (by omega))]
    congr 1
    unfold optRecord
    split
    · next hp => exact h k (Nat.le_refl k) (by omega) hp
    · rfl

/-- Two layouts for the same flags and PLMN agree as soon as the sub-records of
the present kinds agree. -/
theorem uliLayout_congr (u : Utils) (flags : Nat) (plmn : List Nat)
    (lac ci sac rac tac eci menbi emenbi : Nat) (lac2 ci2 sac2 rac2 tac2 eci2 menbi2 emenbi2 : Nat)
    (h : ∀ k, k < 8 → present flags k →
      kindRecord u plmn lac ci sac rac tac eci menbi emenbi k
        = kindRecord u plmn lac2 ci2 sac2 rac2 tac2 eci2 menbi2 emenbi2 k) :
    uliLayout u flags plmn lac ci sac rac tac eci menbi emenbi
      = uliLayout u flags plmn lac2 ci2 sac2 rac2 tac2 eci2 menbi2 emenbi2 := by
  unfold uliLayout
  rw [recordsFrom_congr u flags plmn lac ci sac rac tac eci menbi emenbi lac2 ci2 sac2 rac2 tac2 eci2 menbi2 emenbi2 8 0
    (fun j _ h2 hp => h j (by omega) hp)]

/-- The constructor in one equation: `nil` on a PLMN error, the layout
otherwise. -/
theorem NewUserLocationInformation_eq (u : Utils)
    (hasCGI hasSAI hasRAI hasTAI hasECGI hasLAI hasMENBI hasEMENBI : Nat)
    (mcc mnc : String) (lac ci sac rac tac eci menbi emenbi : Nat) :
    NewUserLocationInformation u hasCGI hasSAI hasRAI hasTAI hasECGI hasLAI hasMENBI hasEMENBI
        mcc mnc lac ci sac rac tac eci menbi emenbi
      = some (match u.EncodePLMN mcc mnc with
        | .error _ => none
        | .ok plmn => some (New UserLocationInformation 0x00
            (uliLayout u (uliFlags hasCGI hasSAI hasRAI hasTAI hasECGI hasLAI hasMENBI hasEMENBI)
              plmn lac ci sac rac tac eci menbi emenbi))) := by
  cases hp : u.EncodePLMN mcc mnc with
  | error e => exact NewUserLocationInformation_err u _ _ _ _ _ _ _ _ mcc mnc _ _ _ _ _ _ _ _ e hp
  | ok plmn => exact NewUserLocationInformation_ok u _ _ _ _ _ _ _ _ mcc mnc _ _ _ _ _ _ _ _ plmn hp

theorem hasOf_mod (x : Int) : hasOf x % 2 = 1 ↔ 0 ≤ x := by
  unfold hasOf
  split
  · next h => exact ⟨fun _ => h, fun _ => rfl⟩
  · next h => exact ⟨fun h1 => absurd h1 (by decide), fun h1 => absurd h1 h⟩

theorem valueOf_of_nonneg (x : Int) (h : 0 ≤ x) : valueOf x = x.toNat := by
  unfold valueOf
  rw [if_pos h]

theorem toUint16_of_nonneg (x : Int) (h : 0 ≤ x) (h2 : x < 65536) : toUint16 x = x.toNat := by
  unfold toUint16
  rw [Int.emod_eq_of_lt h h2]

theorem toUint32_of_nonneg (x : Int) (h : 0 ≤ x) (h2 : x < 4294967296) :
    toUint32 x = x.toNat := by
  unfold toUint32
  rw [Int.emod_eq_of_lt h h2]

theorem NewUserLocationInformationLazy_unfold (u : Utils) (mcc mnc : String)
    (lac ci sac rac tac eci menbi emenbi : Int) :
    NewUserLocationInformationLazy u mcc mnc lac ci sac rac tac eci menbi emenbi
      = NewUserLocationInformation u (hasOf ci) (hasOf sac) (hasOf rac) (hasOf tac) (hasOf eci) (hasOf lac)
        (hasOf menbi) (hasOf emenbi)
        mcc mnc (toUint16 lac) (toUint16 ci) (toUint16 sac) (toUint16 rac) (toUint16 tac)
        (toUint32 eci) (toUint32 menbi) (toUint32 emenbi) := rfl

theorem present_hasOf (lac ci sac rac tac eci menbi emenbi : Int) :
    (present (uliFlags (hasOf ci) (hasOf sac) (hasOf rac) (hasOf tac) (hasOf eci) (hasOf lac)
        (hasOf menbi) (hasOf emenbi)) 0 ↔ 0 ≤ ci) ∧
    (present (uliFlags (hasOf ci) (hasOf sac) (hasOf rac) (hasOf tac) (hasOf eci) (hasOf lac)
        (hasOf menbi) (hasOf emenbi)) 1 ↔ 0 ≤ sac) ∧
    (present (uliFlags (hasOf ci) (hasOf sac) (hasOf rac) (hasOf tac) (hasOf eci) (hasOf lac)
        (hasOf menbi) (hasOf emenbi)) 2 ↔ 0 ≤ rac) ∧
    (present (uliFlags (hasOf ci) (hasOf sac) (hasOf rac) (hasOf tac) (hasOf eci) (hasOf lac)
        (hasOf menbi) (hasOf emenbi)) 3 ↔ 0 ≤ tac) ∧
    (present (uliFlags (hasOf ci) (hasOf sac) (hasOf rac) (hasOf tac) (hasOf eci) (hasOf lac)
        (hasOf menbi) (hasOf emenbi)) 4 ↔ 0 ≤ eci) ∧
    (present (uliFlags (hasOf ci) (hasOf sac) (hasOf rac) (hasOf tac) (hasOf eci) (hasOf lac)
        (hasOf menbi) (hasOf emenbi)) 5 ↔ 0 ≤ lac) ∧
    (present (uliFlags (hasOf ci) (hasOf sac) (hasOf rac) (hasOf tac) (hasOf eci) (hasOf lac)
        (hasOf menbi) (hasOf emenbi)) 6 ↔ 0 ≤ menbi) ∧
    (present (uliFlags (hasOf ci) (hasOf sac) (hasOf rac) (hasOf tac) (hasOf eci) (hasOf lac)
        (hasOf menbi) (hasOf emenbi)) 7 ↔ 0 ≤ emenbi) := by
  have hb := present_uliFlags (hasOf ci) (hasOf sac) (hasOf rac) (hasOf tac) (hasOf eci) (hasOf lac)
        (hasOf menbi) (hasOf emenbi)
  simp only [hasOf_mod] at hb
  exact hb

theorem recordsFrom_eight (u : Utils) (flags : Nat) (plmn : List Nat)
    (lac ci sac rac tac eci menbi emenbi : Nat) :
    recordsFrom u flags plmn lac ci sac rac tac eci menbi emenbi 0 8
      = optRecord u flags plmn lac ci sac rac tac eci menbi emenbi 0
        ++ (optRecord u flags plmn lac ci sac rac tac eci menbi emenbi 1
        ++ (optRecord u flags plmn lac ci sac rac tac eci menbi emenbi 2
        ++ (optRecord u flags plmn lac ci sac rac tac eci menbi emenbi 3
        ++ (optRecord u flags plmn lac ci sac rac tac eci menbi emenbi 4
        ++ (optRecord u flags plmn lac ci sac rac tac eci menbi emenbi 5
        ++ (optRecord u flags plmn lac ci sac rac tac eci menbi emenbi 6
        ++ (optRecord u flags plmn lac ci sac rac tac eci menbi emenbi 7 ++ []))))))) := rfl

/-! ## C4: the lazy constructor against the explicit one -/

/-- C4, as stated, fails: with `lac = -1` and `ci = 0` (all other fields -1) the
lazy constructor emits a CGI sub-record whose LAC bytes are `ff ff`, while the
explicit constructor called with the absent `lac` passed as 0 emits `00 00`. -/
theorem NewUserLocationInformationLazy_absent_lac_counterexample :
    NewUserLocationInformationLazy utils "123" "45" (-1) 0 (-1) (-1) (-1) (-1) (-1) (-1)
      ≠ NewUserLocationInformation utils (hasOf 0) (hasOf (-1)) (hasOf (-1)) (hasOf (-1))
          (hasOf (-1)) (hasOf (-1)) (hasOf (-1)) (hasOf (-1)) "123" "45"
          (valueOf (-1)) (valueOf 0) (valueOf (-1)) (valueOf (-1)) (valueOf (-1))
          (valueOf (-1)) (valueOf (-1)) (valueOf (-1)) := by
  decide

/-- C4, amended: for `int` arguments whose non-negative values are within the
range of their unsigned wire type, `NewUserLocationInformationLazy` returns
what `NewUserLocationInformation` returns when called with the has-flag of each
kind set to 1 exactly when the field of the kind is non-negative, every
non-negative field passed with its value, every negative field other than
`lac` passed as 0, and a negative `lac` passed as `uint16(lac)`. -/
theorem NewUserLocationInformationLazy_explicit (u : Utils) (mcc mnc : String)
    (lac ci sac rac tac eci menbi emenbi : Int)
    (hlac : lac < 65536) (hci : ci < 65536) (hsac : sac < 65536) (hrac : rac < 65536)
    (htac : tac < 65536) (heci : eci < 4294967296) (hmenbi : menbi < 4294967296)
    (hemenbi : emenbi < 4294967296) :
    NewUserLocationInformationLazy u mcc mnc lac ci sac rac tac eci menbi emenbi
      = NewUserLocationInformation u (hasOf ci) (hasOf sac) (hasOf rac) (hasOf tac) (hasOf eci) (hasOf lac)
        (hasOf menbi) (hasOf emenbi)
          mcc mnc (if 0 ≤ lac then lac.toNat else toUint16 lac)
          (valueOf ci) (valueOf sac) (valueOf rac) (valueOf tac) (valueOf eci) (valueOf menbi)
          (valueOf emenbi) := by
  have hl : (if 0 ≤ lac then lac.toNat else toUint16 lac) = toUint16 lac := by
    split
    · next h => exact (toUint16_of_nonneg lac h hlac).symm
    · rfl
  rw [hl, NewUserLocationInformationLazy_unfold, NewUserLocationInformation_eq,
    NewUserLocationInformation_eq]
  cases u.EncodePLMN mcc mnc with
  | error e => rfl
  | ok plmn =>
    simp only
    congr 3
    apply uliLayout_congr
    intro k hk hp
    obtain ⟨b0, b1, b2, b3, b4, b5, b6, b7⟩ := present_hasOf lac ci sac rac tac eci menbi emenbi
    interval_cases k
    · have h := b0.mp hp
      simp only [kindRecord, toUint16_of_nonneg ci h hci, valueOf_of_nonneg ci h]
    · have h := b1.mp hp
      simp only [kindRecord, toUint16_of_nonneg sac h hsac, valueOf_of_nonneg sac h]
    · have h := b2.mp hp
      simp only [kindRecord, toUint16_of_nonneg rac h hrac, valueOf_of_nonneg rac h]
    · have h := b3.mp hp
      simp only [kindRecord, toUint16_of_nonneg tac h htac, valueOf_of_nonneg tac h]
    · have h := b4.mp hp
      simp only [kindRecord, toUint32_of_nonneg eci h heci, valueOf_of_nonneg eci h]
    · simp only [kindRecord]
    · have h := b6.mp hp
      simp only [kindRecord, toUint32_of_nonneg menbi h hmenbi, valueOf_of_nonneg menbi h]
    · have h := b7.mp hp
      simp only [kindRecord, toUint32_of_nonneg emenbi h hemenbi, valueOf_of_nonneg emenbi h]

theorem NewUserLocationInformationLazy_explicit_witness :
    ((-1 : Int) < 65536 ∧ (5 : Int) < 65536 ∧ (-1 : Int) < 65536 ∧ (7 : Int) < 65536 ∧
      (-1 : Int) < 65536 ∧ (9 : Int) < 4294967296 ∧ (-1 : Int) < 4294967296 ∧
      (11 : Int) < 4294967296) ∧
    NewUserLocationInformationLazy utils "123" "45" (-1) 5 (-1) 7 (-1) 9 (-1) 11
      = NewUserLocationInformation utils (hasOf 5) (hasOf (-1)) (hasOf 7) (hasOf (-1))
          (hasOf 9) (hasOf (-1)) (hasOf (-1)) (hasOf 11) "123" "45"
          (if 0 ≤ (-1 : Int) then (-1 : Int).toNat else toUint16 (-1))
          (valueOf 5) (valueOf (-1)) (valueOf 7) (valueOf (-1)) (valueOf 9) (valueOf (-1))
          (valueOf 11) :=
  ⟨by decide, NewUserLocationInformationLazy_explicit utils "123" "45" (-1) 5 (-1) 7 (-1) 9
    (-1) 11 (by decide) (by decide) (by decide) (by decide) (by decide) (by decide)
    (by decide) (by decide)⟩

/-! ## C5: the mask derived by the lazy constructor -/

/-- C5: whenever `utils.EncodePLMN` succeeds, `NewUserLocationInformationLazy`
returns an IE whose mask byte has bit 0 set iff `ci >= 0`, bit 1 iff `sac >= 0`,
bit 2 iff `rac >= 0`, bit 3 iff `tac >= 0`, bit 4 iff `eci >= 0`, bit 5 iff
`lac >= 0`, bit 6 iff `menbi >= 0` and bit 7 iff `emenbi >= 0`, and whose
remaining bytes are the sub-records of exactly the kinds whose argument is not
negative: a negative field gets no sub-record of its own kind. -/
theorem NewUserLocationInformationLazy_mask (u : Utils) (mcc mnc : String)
    (lac ci sac rac tac eci menbi emenbi : Int) (plmn : List Nat)
    (hplmn : u.EncodePLMN mcc mnc = .ok plmn) :
    ∃ mask rest, NewUserLocationInformationLazy u mcc mnc lac ci sac rac tac eci menbi emenbi
        = some (some (New UserLocationInformation 0x00 (mask :: rest))) ∧
      (mask.testBit 0 = true ↔ 0 ≤ ci) ∧
      (mask.testBit 1 = true ↔ 0 ≤ sac) ∧
      (mask.testBit 2 = true ↔ 0 ≤ rac) ∧
      (mask.testBit 3 = true ↔ 0 ≤ tac) ∧
      (mask.testBit 4 = true ↔ 0 ≤ eci) ∧
      (mask.testBit 5 = true ↔ 0 ≤ lac) ∧
      (mask.testBit 6 = true ↔ 0 ≤ menbi) ∧
      (mask.testBit 7 = true ↔ 0 ≤ emenbi) ∧
      rest = (if 0 ≤ ci then kindRecord u plmn (toUint16 lac) (toUint16 ci) (toUint16 sac) (toUint16 rac) (toUint16 tac) (toUint32 eci) (toUint32 menbi) (toUint32 emenbi) 0 else [])
          ++ (if 0 ≤ sac then kindRecord u plmn (toUint16 lac) (toUint16 ci) (toUint16 sac) (toUint16 rac) (toUint16 tac) (toUint32 eci) (toUint32 menbi) (toUint32 emenbi) 1 else [])
          ++ (if 0 ≤ rac then kindRecord u plmn (toUint16 lac) (toUint16 ci) (toUint16 sac) (toUint16 rac) (toUint16 tac) (toUint32 eci) (toUint32 menbi) (toUint32 emenbi) 2 else [])
          ++ (if 0 ≤ tac then kindRecord u plmn (toUint16 lac) (toUint16 ci) (toUint16 sac) (toUint16 rac) (toUint16 tac) (toUint32 eci) (toUint32 menbi) (toUint32 emenbi) 3 else [])
          ++ (if 0 ≤ eci then kindRecord u plmn (toUint16 lac) (toUint16 ci) (toUint16 sac) (toUint16 rac) (toUint16 tac) (toUint32 eci) (toUint32 menbi) (toUint32 emenbi) 4 else [])
          ++ (if 0 ≤ lac then kindRecord u plmn (toUint16 lac) (toUint16 ci) (toUint16 sac) (toUint16 rac) (toUint16 tac) (toUint32 eci) (toUint32 menbi) (toUint32 emenbi) 5 else [])
          ++ (if 0 ≤ menbi then kindRecord u plmn (toUint16 lac) (toUint16 ci) (toUint16 sac) (toUint16 rac) (toUint16 tac) (toUint32 eci) (toUint32 menbi) (toUint32 emenbi) 6 else [])
          ++ (if 0 ≤ emenbi then kindRecord u plmn (toUint16 lac) (toUint16 ci) (toUint16 sac) (toUint16 rac) (toUint16 tac) (toUint32 eci) (toUint32 menbi) (toUint32 emenbi) 7 else []) := by
  obtain ⟨b0, b1, b2, b3, b4, b5, b6, b7⟩ := present_hasOf lac ci sac rac tac eci menbi emenbi
  refine ⟨uliFlags (hasOf ci) (hasOf sac) (hasOf rac) (hasOf tac) (hasOf eci) (hasOf lac)
        (hasOf menbi) (hasOf emenbi),
    recordsFrom u (uliFlags (hasOf ci) (hasOf sac) (hasOf rac) (hasOf tac) (hasOf eci) (hasOf lac)
        (hasOf menbi) (hasOf emenbi))
      plmn (toUint16 lac) (toUint16 ci) (toUint16 sac) (toUint16 rac) (toUint16 tac)
        (toUint32 eci) (toUint32 menbi) (toUint32 emenbi) 0 8, ?_, ?_⟩
  · rw [NewUserLocationInformationLazy_unfold]
    exact NewUserLocationInformation_ok u _ _ _ _ _ _ _ _ mcc mnc _ _ _ _ _ _ _ _ plmn hplmn
  · simp only [← present_iff_testBit]
    refine ⟨b0, b1, b2, b3, b4, b5, b6, b7, ?_⟩
    rw [recordsFrom_eight]
    simp only [optRecord, b0, b1, b2, b3, b4, b5, b6, b7, List.append_assoc, List.append_nil]

theorem NewUserLocationInformationLazy_mask_witness :
    utils.EncodePLMN "123" "45" = .ok [0x21, 0xf3, 0x54] ∧
    ∃ mask rest, NewUserLocationInformationLazy utils "123" "45" (-1) 5 (-1) 7 (-1) 9 (-1) 11
        = some (some (New UserLocationInformation 0x00 (mask :: rest))) :=
  ⟨rfl, (NewUserLocationInformationLazy_mask utils "123" "45" (-1) 5 (-1) 7 (-1) 9 (-1) 11
    [0x21, 0xf3, 0x54] rfl).elim fun m hm => hm.elim fun r hr => ⟨m, r, hr.1⟩⟩

/-! ## C6: the PLMN is repeated in every present sub-record -/

theorem kindRecord_take_three (u : Utils) (plmn : List Nat)
    (lac ci sac rac tac eci menbi emenbi : Nat) (k : Nat) (hk : k < 8) :
    (kindRecord u plmn lac ci sac rac tac eci menbi emenbi k).take 3 = padTo 3 plmn := by
  have h3 := padTo_length 3 plmn
  interval_cases k <;>
    simp only [kindRecord, List.append_assoc, List.take_left' h3]

theorem three_le_kindLen (k : Nat) (hk : k < 8) : 3 ≤ kindLen k := by
  interval_cases k <;> decide

theorem present_count (flags : Nat) (l : List Nat) :
    (l.filter fun k => decide (present flags k)).length
      = (l.map fun k => (flags >>> k) &&& 0x01).sum := by
  induction l with
  | nil => rfl
  | cons k l ih =>
    by_cases h : present flags k
    · have h1 : (flags >>> k) &&& 0x01 = 1 := h
      simp only [List.filter_cons, h, decide_True, if_true, List.length_cons, List.map_cons,
        List.sum_cons, ih, h1]
      omega
    · have h1 : (flags >>> k) &&& 0x01 = 0 := by
        have h2 : ¬ ((flags >>> k) &&& 0x01 = 1) := h
        rw [Nat.and_one_is_mod] at h2 ⊢
        omega
      simp only [List.filter_cons, h, decide_False, Bool.false_eq_true, if_false, List.map_cons,
        List.sum_cons, h1, Nat.zero_add]
      exact ih

/-- C6: whenever `utils.EncodePLMN` returns a 3-byte `plmn`, the first 3 bytes
of every present sub-record in the payload of `NewUserLocationInformation`
equal `plmn`; the present sub-records, hence the copies of the PLMN at their
starts, are as many as there are bits set in the flags. -/
theorem NewUserLocationInformation_plmn_repeated (u : Utils)
    (hasCGI hasSAI hasRAI hasTAI hasECGI hasLAI hasMENBI hasEMENBI : Nat)
    (mcc mnc : String) (lac ci sac rac tac eci menbi emenbi : Nat) (plmn : List Nat)
    (hplmn : u.EncodePLMN mcc mnc = .ok plmn) (hlen : plmn.length = 3) :
    ∃ ie, NewUserLocationInformation u hasCGI hasSAI hasRAI hasTAI hasECGI hasLAI hasMENBI hasEMENBI
        mcc mnc lac ci sac rac tac eci menbi emenbi = some (some ie) ∧
      (∀ k, k < 8 → present (uliFlags hasCGI hasSAI hasRAI hasTAI hasECGI hasLAI hasMENBI hasEMENBI) k →
        (ie.Payload.drop
          (1 + lenFrom (uliFlags hasCGI hasSAI hasRAI hasTAI hasECGI hasLAI hasMENBI hasEMENBI) 0 k)).take 3
          = plmn) ∧
      ((List.range 8).filter fun k =>
          decide (present (uliFlags hasCGI hasSAI hasRAI hasTAI hasECGI hasLAI hasMENBI hasEMENBI) k)).length
        = popcount8 (uliFlags hasCGI hasSAI hasRAI hasTAI hasECGI hasLAI hasMENBI hasEMENBI) := by
  refine ⟨_, NewUserLocationInformation_ok u hasCGI hasSAI hasRAI hasTAI hasECGI hasLAI hasMENBI hasEMENBI
    mcc mnc lac ci sac rac tac eci menbi emenbi plmn hplmn, ?_, present_count _ _⟩
  intro k hk hp
  have h1 := uliLayout_slice u _ plmn lac ci sac rac tac eci menbi emenbi k hk hp
  have h2 := kindRecord_take_three u plmn lac ci sac rac tac eci menbi emenbi k hk
  rw [← h1, List.take_take, Nat.min_eq_left (three_le_kindLen k hk),
    padTo_of_length_eq 3 plmn hlen] at h2
  exact h2

theorem NewUserLocationInformation_plmn_repeated_witness :
    utils.EncodePLMN "123" "45" = .ok [0x21, 0xf3, 0x54] ∧
    [0x21, 0xf3, 0x54].length = 3 ∧
    ∃ ie, NewUserLocationInformation utils 1 0 1 1 0 0 1 0
        "123" "45" 0xff 1 2 3 4 5 6 7 = some (some ie) ∧
      ((List.range 8).filter fun k =>
          decide (present (uliFlags 1 0 1 1 0 0 1 0) k)).length
        = popcount8 (uliFlags 1 0 1 1 0 0 1 0) :=
  ⟨rfl, rfl, (NewUserLocationInformation_plmn_repeated utils 1 0 1 1 0 0 1 0 "123" "45"
    0xff 1 2 3 4 5 6 7 [0x21, 0xf3, 0x54] rfl rfl).imp fun _ h => ⟨h.1, h.2.2⟩⟩

/-! ## C7: the sub-records, byte by byte -/

/-- C7, as stated, fails for the ECGI kind: with `eci = 0x100000` the 4-byte
field written after the PLMN is `00 00 00 00`, not the four bytes
`00 10 00 00` of `eci`. -/
theorem NewUserLocationInformation_ecgi_counterexample :
    ∃ ie, NewUserLocationInformation utils 0 0 0 0 1 0 0 0 "123" "45" 0 0 0 0 0 0x100000 0 0
        = some (some ie) ∧
      ie.Payload = [0x10] ++ [0x21, 0xf3, 0x54] ++ [0x00, 0x00, 0x00, 0x00] ∧
      ie.Payload ≠ [0x10] ++ [0x21, 0xf3, 0x54] ++ be32 0x100000 :=
  ⟨_, rfl, by decide, by decide⟩

/-- C7, amended: whenever `utils.EncodePLMN` returns a 3-byte `plmn` (and
`utils.Uint32To24` returns the three low bytes of its argument, most
significant first), the payload is the mask byte followed, for each present
kind in ascending bit order, by `plmn` and the tail of the kind in big-endian:
CGI `lac` (2 bytes) and `ci` (2 bytes); SAI `lac` and `sac`; RAI `lac` and
`rac`; TAI `tac` (2 bytes); ECGI the low 20 bits of `eci`, `eci & 0xfffff`, as
a 4-byte field; LAI `lac`; MENBI the low 24 bits of `menbi` (3 bytes); EMENBI
the low 24 bits of `emenbi` (3 bytes). -/
theorem NewUserLocationInformation_sub_records (u : Utils)
    (hasCGI hasSAI hasRAI hasTAI hasECGI hasLAI hasMENBI hasEMENBI : Nat)
    (mcc mnc : String) (lac ci sac rac tac eci menbi emenbi : Nat) (plmn : List Nat)
    (hplmn : u.EncodePLMN mcc mnc = .ok plmn) (hlen : plmn.length = 3)
    (hU : ∀ v, u.Uint32To24 v = be24 v) :
    ∃ ie, NewUserLocationInformation u hasCGI hasSAI hasRAI hasTAI hasECGI hasLAI hasMENBI hasEMENBI
        mcc mnc lac ci sac rac tac eci menbi emenbi = some (some ie) ∧
      ie.Payload = [uliFlags hasCGI hasSAI hasRAI hasTAI hasECGI hasLAI hasMENBI hasEMENBI]
          ++ (if (uliFlags hasCGI hasSAI hasRAI hasTAI hasECGI hasLAI hasMENBI hasEMENBI).testBit 0
              then plmn ++ be16 lac ++ be16 ci else [])
          ++ (if (uliFlags hasCGI hasSAI hasRAI hasTAI hasECGI hasLAI hasMENBI hasEMENBI).testBit 1
              then plmn ++ be16 lac ++ be16 sac else [])
          ++ (if (uliFlags hasCGI hasSAI hasRAI hasTAI hasECGI hasLAI hasMENBI hasEMENBI).testBit 2
              then plmn ++ be16 lac ++ be16 rac else [])
          ++ (if (uliFlags hasCGI hasSAI hasRAI hasTAI hasECGI hasLAI hasMENBI hasEMENBI).testBit 3
              then plmn ++ be16 tac else [])
          ++ (if (uliFlags hasCGI hasSAI hasRAI hasTAI hasECGI hasLAI hasMENBI hasEMENBI).testBit 4
              then plmn ++ be32 (eci &&& 0xfffff) else [])
          ++ (if (uliFlags hasCGI hasSAI hasRAI hasTAI hasECGI hasLAI hasMENBI hasEMENBI).testBit 5
              then plmn ++ be16 lac else [])
          ++ (if (uliFlags hasCGI hasSAI hasRAI hasTAI hasECGI hasLAI hasMENBI hasEMENBI).testBit 6
              then plmn ++ be24 menbi else [])
          ++ (if (uliFlags hasCGI hasSAI hasRAI hasTAI hasECGI hasLAI hasMENBI hasEMENBI).testBit 7
              then plmn ++ be24 emenbi else []) := by
  refine ⟨_, NewUserLocationInformation_ok u hasCGI hasSAI hasRAI hasTAI hasECGI hasLAI hasMENBI hasEMENBI
    mcc mnc lac ci sac rac tac eci menbi emenbi plmn hplmn, ?_⟩
  have h24 : ∀ v, padTo 3 (be24 v) = be24 v := fun v => padTo_of_length_eq 3 _ rfl
  show uliLayout u _ plmn lac ci sac rac tac eci menbi emenbi = _
  rw [uliLayout, recordsFrom_eight]
  simp only [optRecord, present_iff_testBit, kindRecord, padTo_of_length_eq 3 plmn hlen, hU,
    h24, List.append_assoc, List.append_nil, List.singleton_append, List.cons_append,
    List.nil_append]

theorem NewUserLocationInformation_sub_records_witness :
    utils.EncodePLMN "123" "45" = .ok [0x21, 0xf3, 0x54] ∧
    [0x21, 0xf3, 0x54].length = 3 ∧ (∀ v, utils.Uint32To24 v = be24 v) ∧
    ∃ ie, NewUserLocationInformation utils 1 0 1 1 0 0 1 0
        "123" "45" 0xff 1 2 3 4 5 6 7 = some (some ie) :=
  ⟨rfl, rfl, fun _ => rfl, (NewUserLocationInformation_sub_records utils 1 0 1 1 0 0 1 0
    "123" "45" 0xff 1 2 3 4 5 6 7 [0x21, 0xf3, 0x54] rfl rfl fun _ => rfl).imp
    fun _ h => h.1⟩

/-! ## C8: the extreme masks -/

theorem not_present_zero (k : Nat) : ¬ present 0 k := by
  simp [present]

theorem uliPayloadLen_bounds (flags : Nat) :
    1 ≤ uliPayloadLen flags ∧ uliPayloadLen flags ≤ 51 := by
  have h0 : (if flags.testBit 0 then 7 else 0) ≤ 7 := by split <;> omega
  have h1 : (if flags.testBit 1 then 7 else 0) ≤ 7 := by split <;> omega
  have h2 : (if flags.testBit 2 then 7 else 0) ≤ 7 := by split <;> omega
  have h3 : (if flags.testBit 3 then 5 else 0) ≤ 5 := by split <;> omega
  have h4 : (if flags.testBit 4 then 7 else 0) ≤ 7 := by split <;> omega
  have h5 : (if flags.testBit 5 then 5 else 0) ≤ 5 := by split <;> omega
  have h6 : (if flags.testBit 6 then 6 else 0) ≤ 6 := by split <;> omega
  have h7 : (if flags.testBit 7 then 6 else 0) ≤ 6 := by split <;> omega
  rw [uliPayloadLen_testBit]
  omega

/-- C8: whenever `utils.EncodePLMN` succeeds and whatever the field values,
with all eight has-arguments 0 the payload is exactly the single byte `0x00`;
with all eight 1 the mask byte is `0xff` and the payload has length
51 = 1+7+7+7+5+7+5+6+6; and for all has-arguments the payload length lies
between 1 and 51. -/
theorem NewUserLocationInformation_extremes (u : Utils)
    (mcc mnc : String) (lac ci sac rac tac eci menbi emenbi : Nat) (plmn : List Nat)
    (hplmn : u.EncodePLMN mcc mnc = .ok plmn) :
    NewUserLocationInformation u 0 0 0 0 0 0 0 0 mcc mnc lac ci sac rac tac eci menbi emenbi
        = some (some (New UserLocationInformation 0x00 [0x00])) ∧
    (∃ rest, NewUserLocationInformation u 1 1 1 1 1 1 1 1 mcc mnc lac ci sac rac tac eci menbi emenbi
        = some (some (New UserLocationInformation 0x00 (0xff :: rest))) ∧
      (0xff :: rest).length = 51 ∧ 51 = 1 + 7 + 7 + 7 + 5 + 7 + 5 + 6 + 6) ∧
    (∀ hasCGI hasSAI hasRAI hasTAI hasECGI hasLAI hasMENBI hasEMENBI : Nat,
      ∃ ie, NewUserLocationInformation u hasCGI hasSAI hasRAI hasTAI hasECGI hasLAI hasMENBI hasEMENBI
          mcc mnc lac ci sac rac tac eci menbi emenbi = some (some ie) ∧
        1 ≤ ie.Payload.length ∧ ie.Payload.length ≤ 51) := by
  refine ⟨?_, ?_, ?_⟩
  · rw [NewUserLocationInformation_ok u 0 0 0 0 0 0 0 0 mcc mnc lac ci sac rac tac eci menbi emenbi plmn hplmn]
    have hz : uliFlags 0 0 0 0 0 0 0 0 = 0 := rfl
    rw [hz, uliLayout, recordsFrom_eight]
    simp only [optRecord, not_present_zero, if_false, List.append_nil]
  · refine ⟨recordsFrom u 255 plmn lac ci sac rac tac eci menbi emenbi 0 8,
      NewUserLocationInformation_ok u 1 1 1 1 1 1 1 1 mcc mnc lac ci sac rac tac eci menbi emenbi plmn hplmn,
      ?_, rfl⟩
    have hl := uliLayout_length u 255 plmn lac ci sac rac tac eci menbi emenbi
    have h51 : uliPayloadLen 255 = 51 := rfl
    rw [h51] at hl
    exact hl
  · intro hasCGI hasSAI hasRAI hasTAI hasECGI hasLAI hasMENBI hasEMENBI
    refine ⟨_, NewUserLocationInformation_ok u hasCGI hasSAI hasRAI hasTAI hasECGI hasLAI hasMENBI hasEMENBI
      mcc mnc lac ci sac rac tac eci menbi emenbi plmn hplmn, ?_⟩
    show 1 ≤ (uliLayout u _ plmn lac ci sac rac tac eci menbi emenbi).length
      ∧ (uliLayout u _ plmn lac ci sac rac tac eci menbi emenbi).length ≤ 51
    rw [uliLayout_length]
    exact uliPayloadLen_bounds _

theorem NewUserLocationInformation_extremes_witness :
    utils.EncodePLMN "123" "45" = .ok [0x21, 0xf3, 0x54] ∧
    NewUserLocationInformation utils 0 0 0 0 0 0 0 0 "123" "45" 0xff 1 2 3 4 5 6 7
        = some (some (New UserLocationInformation 0x00 [0x00])) :=
  ⟨rfl, (NewUserLocationInformation_extremes utils "123" "45" 0xff 1 2 3 4 5 6 7
    [0x21, 0xf3, 0x54] rfl).1⟩

/-! ## C9: a malformed network identity -/

/-- C9: for all has-arguments (flags 0 included) `NewUserLocationInformation`
returns `nil` if and only if `utils.EncodePLMN(mcc, mnc)` returns an error, and
`NewUserLocationInformationLazy` returns `nil` in exactly the same cases;
neither of them panics. -/
theorem NewUserLocationInformation_nil_iff (u : Utils)
    (hasCGI hasSAI hasRAI hasTAI hasECGI hasLAI hasMENBI hasEMENBI : Nat)
    (mcc mnc : String) (lac ci sac rac tac eci menbi emenbi : Nat)
    (lacI ciI sacI racI tacI eciI menbiI emenbiI : Int) :
    (NewUserLocationInformation u hasCGI hasSAI hasRAI hasTAI hasECGI hasLAI hasMENBI hasEMENBI
        mcc mnc lac ci sac rac tac eci menbi emenbi = some none
      ↔ ∃ e, u.EncodePLMN mcc mnc = .error e) ∧
    (NewUserLocationInformationLazy u mcc mnc lacI ciI sacI racI tacI eciI menbiI emenbiI
        = some none
      ↔ ∃ e, u.EncodePLMN mcc mnc = .error e) ∧
    NewUserLocationInformation u hasCGI hasSAI hasRAI hasTAI hasECGI hasLAI hasMENBI hasEMENBI
        mcc mnc lac ci sac rac tac eci menbi emenbi ≠ none ∧
    NewUserLocationInformationLazy u mcc mnc lacI ciI sacI racI tacI eciI menbiI emenbiI ≠ none := by
  rw [NewUserLocationInformationLazy_unfold, NewUserLocationInformation_eq,
    NewUserLocationInformation_eq]
  cases u.EncodePLMN mcc mnc with
  | error e => simp
  | ok plmn => simp

/-! ## C10: the vectors of the location-information IE -/

/-- C10: the location-information encoder of the vectors, given MCC "123",
MNC "45", LAC 0xff and the cell identity with CI 0, yields the 8-byte payload
`00 21 f3 54 00 ff 00 00` and the wire bytes
`98 00 08 00 21 f3 54 00 ff 00 00`; given the service area with SAC 0 it
yields the 8-byte payload `01 21 f3 54 00 ff 00 00`, wire bytes
`98 00 08 01 21 f3 54 00 ff 00 00`; the two payloads have the same length and
differ only in their first byte. -/
theorem NewUserLocationInformationWithCGI_vectors :
    NewUserLocationInformationWithCGI utils "123" "45" 0xff 0
      = some (New UserLocationInformation 0x00
          [0x00, 0x21, 0xf3, 0x54, 0x00, 0xff, 0x00, 0x00]) ∧
    (NewUserLocationInformationWithCGI utils "123" "45" 0xff 0).map Marshal
      = some [0x98, 0x00, 0x08, 0x00, 0x21, 0xf3, 0x54, 0x00, 0xff, 0x00, 0x00] ∧
    NewUserLocationInformationWithSAI utils "123" "45" 0xff 0
      = some (New UserLocationInformation 0x00
          [0x01, 0x21, 0xf3, 0x54, 0x00, 0xff, 0x00, 0x00]) ∧
    (NewUserLocationInformationWithSAI utils "123" "45" 0xff 0).map Marshal
      = some [0x98, 0x00, 0x08, 0x01, 0x21, 0xf3, 0x54, 0x00, 0xff, 0x00, 0x00] ∧
    ∃ v w, NewUserLocationInformationWithCGI utils "123" "45" 0xff 0 = some v ∧
      NewUserLocationInformationWithSAI utils "123" "45" 0xff 0 = some w ∧
      v.Payload.length = 8 ∧ w.Payload.length = 8 ∧
      v.Payload.tail = w.Payload.tail ∧ v.Payload.head? ≠ w.Payload.head? :=
  ⟨rfl, rfl, rfl, rfl, _, _, rfl, rfl, rfl, rfl, rfl, by decide⟩

/-! ## C12: every write stays inside the allocated payload -/

theorem lenFrom_append (flags k m n : Nat) :
    lenFrom flags k (m + n) = lenFrom flags k m + lenFrom flags (k + m) n := by
  induction m generalizing k with
  | zero => simp [lenFrom]
  | succ m ih =>
    rw [Nat.add_right_comm, lenFrom, lenFrom, ih, Nat.add_assoc k 1 m, Nat.add_comm 1 m,
      Nat.add_assoc]

theorem lenFrom_succ_right (flags k : Nat) :
    lenFrom flags 0 (k + 1) = lenFrom flags 0 k + optLen flags k := by
  rw [lenFrom_append, Nat.zero_add]
  show _ + (optLen flags k + 0) = _
  rw [Nat.add_zero]

theorem lenFrom_step_le (flags j k : Nat) (h : j < k) :
    lenFrom flags 0 j + optLen flags j ≤ lenFrom flags 0 k := by
  obtain ⟨n, hn⟩ : ∃ n, k = (j + 1) + n := ⟨k - (j + 1), by omega⟩
  rw [hn, lenFrom_append, lenFrom_succ_right]
  omega

theorem lenFrom_eq_zero (flags n : Nat) :
    ∀ k, (∀ j, k ≤ j → j < k + n → ¬ present flags j) → lenFrom flags k n = 0 := by
  induction n with
  | zero => intro k _; rfl
  | succ n ih =>
    intro k h
    have h0 : optLen flags k = 0 := if_neg (h k (Nat.le_refl k) (by omega))
    rw [lenFrom, h0, ih (k + 1) (fun j h1 h2 => h j (by omega) (by omega))]

theorem lenFrom_last (flags k : Nat) (hk : k < 8) (hp : present flags k)
    (hlast : ∀ j, k < j → j < 8 → ¬ present flags j) :
    1 + lenFrom flags 0 k + kindLen k = uliPayloadLen flags := by
  obtain ⟨n, hn⟩ : ∃ n, 8 = (k + 1) + n := ⟨7 - k, by omega⟩
  have hopt : optLen flags k = kindLen k := if_pos hp
  have hz : lenFrom flags (0 + (k + 1)) n = 0 :=
    lenFrom_eq_zero flags n _ (fun j h1 h2 => hlast j (by omega) (by omega))
  rw [uliPayloadLen_eq, hn, lenFrom_append, lenFrom_succ_right, hopt, hz]
  omega

/-- C12: for all has-arguments and field values `NewUserLocationInformation`
does not panic, so no index or slice leaves the payload; when
`utils.EncodePLMN` succeeds, the payload is allocated with `uliPayloadLen flags`
bytes, the write of `payload[0]` and the eight blocks run without panic on it
and leave its length unchanged, the slice of each kind `k`, from offset
`1 + lenFrom flags 0 k` on `optLen flags k` bytes, ends within the payload and
before the slice of every later kind begins, and the slice of the last kind
ends at `uliPayloadLen flags`, as does the slice of the last present kind:
the variable `offset`, which the last block does not advance, ends at
`1 + lenFrom flags 0 7`, the start of the slice of the last kind. -/
theorem NewUserLocationInformation_in_bounds (u : Utils)
    (hasCGI hasSAI hasRAI hasTAI hasECGI hasLAI hasMENBI hasEMENBI : Nat)
    (mcc mnc : String) (lac ci sac rac tac eci menbi emenbi : Nat) (plmn : List Nat)
    (hplmn : u.EncodePLMN mcc mnc = .ok plmn) :
    NewUserLocationInformation u hasCGI hasSAI hasRAI hasTAI hasECGI hasLAI hasMENBI hasEMENBI
        mcc mnc lac ci sac rac tac eci menbi emenbi ≠ none ∧
    (∃ payload0 payload offset,
      setIndex (make (uliPayloadLen (uliFlags hasCGI hasSAI hasRAI hasTAI hasECGI hasLAI hasMENBI hasEMENBI))) 0
          (uliFlags hasCGI hasSAI hasRAI hasTAI hasECGI hasLAI hasMENBI hasEMENBI) = some payload0 ∧
      payload0.length = uliPayloadLen (uliFlags hasCGI hasSAI hasRAI hasTAI hasECGI hasLAI hasMENBI hasEMENBI) ∧
      uliFill u (uliFlags hasCGI hasSAI hasRAI hasTAI hasECGI hasLAI hasMENBI hasEMENBI) plmn
          lac ci sac rac tac eci menbi emenbi payload0 = some (payload, offset) ∧
      payload.length = uliPayloadLen (uliFlags hasCGI hasSAI hasRAI hasTAI hasECGI hasLAI hasMENBI hasEMENBI) ∧
      offset = 1 + lenFrom (uliFlags hasCGI hasSAI hasRAI hasTAI hasECGI hasLAI hasMENBI hasEMENBI) 0 7 ∧
      offset + optLen (uliFlags hasCGI hasSAI hasRAI hasTAI hasECGI hasLAI hasMENBI hasEMENBI) 7
        = uliPayloadLen (uliFlags hasCGI hasSAI hasRAI hasTAI hasECGI hasLAI hasMENBI hasEMENBI)) ∧
    (∀ k, k < 8 →
      1 + lenFrom (uliFlags hasCGI hasSAI hasRAI hasTAI hasECGI hasLAI hasMENBI hasEMENBI) 0 k
          + optLen (uliFlags hasCGI hasSAI hasRAI hasTAI hasECGI hasLAI hasMENBI hasEMENBI) k
        ≤ uliPayloadLen (uliFlags hasCGI hasSAI hasRAI hasTAI hasECGI hasLAI hasMENBI hasEMENBI)) ∧
    (∀ j k, j < k → k < 8 →
      1 + lenFrom (uliFlags hasCGI hasSAI hasRAI hasTAI hasECGI hasLAI hasMENBI hasEMENBI) 0 j
          + optLen (uliFlags hasCGI hasSAI hasRAI hasTAI hasECGI hasLAI hasMENBI hasEMENBI) j
        ≤ 1 + lenFrom (uliFlags hasCGI hasSAI hasRAI hasTAI hasECGI hasLAI hasMENBI hasEMENBI) 0 k) ∧
    (∀ k, k < 8 → present (uliFlags hasCGI hasSAI hasRAI hasTAI hasECGI hasLAI hasMENBI hasEMENBI) k →
      (∀ j, k < j → j < 8 →
        ¬ present (uliFlags hasCGI hasSAI hasRAI hasTAI hasECGI hasLAI hasMENBI hasEMENBI) j) →
      1 + lenFrom (uliFlags hasCGI hasSAI hasRAI hasTAI hasECGI hasLAI hasMENBI hasEMENBI) 0 k + kindLen k
        = uliPayloadLen (uliFlags hasCGI hasSAI hasRAI hasTAI hasECGI hasLAI hasMENBI hasEMENBI)) := by
  have hL := uliPayloadLen_eq (uliFlags hasCGI hasSAI hasRAI hasTAI hasECGI hasLAI hasMENBI hasEMENBI)
  refine ⟨?_, ?_, ?_, ?_, lenFrom_last _⟩
  · rw [NewUserLocationInformation_ok u hasCGI hasSAI hasRAI hasTAI hasECGI hasLAI hasMENBI hasEMENBI
      mcc mnc lac ci sac rac tac eci menbi emenbi plmn hplmn]
    exact Option.some_ne_none _
  · refine ⟨[uliFlags hasCGI hasSAI hasRAI hasTAI hasECGI hasLAI hasMENBI hasEMENBI]
        ++ List.replicate (lenFrom (uliFlags hasCGI hasSAI hasRAI hasTAI hasECGI hasLAI hasMENBI hasEMENBI) 0 8) 0,
      uliLayout u (uliFlags hasCGI hasSAI hasRAI hasTAI hasECGI hasLAI hasMENBI hasEMENBI) plmn lac ci sac rac tac eci menbi emenbi,
      1 + lenFrom (uliFlags hasCGI hasSAI hasRAI hasTAI hasECGI hasLAI hasMENBI hasEMENBI) 0 7, ?_, ?_, ?_, ?_, rfl, ?_⟩
    · rw [hL, setIndex_make]
    · rw [hL, List.length_append, List.length_replicate]
      rfl
    · rw [uliFill_eq_fillCGI, fillCGI_spec u _ plmn lac ci sac rac tac eci menbi emenbi [_] _ 1 rfl rfl]
      rfl
    · exact uliLayout_length u _ plmn lac ci sac rac tac eci menbi emenbi
    · rw [hL, Nat.add_assoc, ← lenFrom_succ_right]
  · intro k hk
    have h := lenFrom_step_le (uliFlags hasCGI hasSAI hasRAI hasTAI hasECGI hasLAI hasMENBI hasEMENBI) k 8 hk
    omega
  · intro j k hjk _
    have h := lenFrom_step_le (uliFlags hasCGI hasSAI hasRAI hasTAI hasECGI hasLAI hasMENBI hasEMENBI) j k hjk
    omega

theorem NewUserLocationInformation_in_bounds_witness :
    utils.EncodePLMN "123" "45" = .ok [0x21, 0xf3, 0x54] ∧
    NewUserLocationInformation utils 1 0 1 1 0 0 1 1 "123" "45" 0xff 1 2 3 4 5 6 7 ≠ none :=
  ⟨rfl, (NewUserLocationInformation_in_bounds utils 1 0 1 1 0 0 1 1 "123" "45"
    0xff 1 2 3 4 5 6 7 [0x21, 0xf3, 0x54] rfl).1⟩

/-! ## C13: the fields of absent kinds do not reach the output -/

/-- C13: for fixed has-arguments, `mcc` and `mnc`, two calls of
`NewUserLocationInformation` return the same result as soon as they agree on
`ci` if bit 0 is set, on `sac` if bit 1, on `rac` if bit 2, on `tac` if bit 3,
on `eci` if bit 4, on `menbi` if bit 6, on `emenbi` if bit 7, and on `lac` if
at least one of the bits 0, 1, 2, 5 is set. -/
theorem NewUserLocationInformation_absent_fields (u : Utils)
    (hasCGI hasSAI hasRAI hasTAI hasECGI hasLAI hasMENBI hasEMENBI : Nat)
    (mcc mnc : String) (lac ci sac rac tac eci menbi emenbi : Nat)
    (lac2 ci2 sac2 rac2 tac2 eci2 menbi2 emenbi2 : Nat)
    (hci : (uliFlags hasCGI hasSAI hasRAI hasTAI hasECGI hasLAI hasMENBI hasEMENBI).testBit 0 = true → ci = ci2)
    (hsac : (uliFlags hasCGI hasSAI hasRAI hasTAI hasECGI hasLAI hasMENBI hasEMENBI).testBit 1 = true → sac = sac2)
    (hrac : (uliFlags hasCGI hasSAI hasRAI hasTAI hasECGI hasLAI hasMENBI hasEMENBI).testBit 2 = true → rac = rac2)
    (htac : (uliFlags hasCGI hasSAI hasRAI hasTAI hasECGI hasLAI hasMENBI hasEMENBI).testBit 3 = true → tac = tac2)
    (heci : (uliFlags hasCGI hasSAI hasRAI hasTAI hasECGI hasLAI hasMENBI hasEMENBI).testBit 4 = true → eci = eci2)
    (hmenbi : (uliFlags hasCGI hasSAI hasRAI hasTAI hasECGI hasLAI hasMENBI hasEMENBI).testBit 6 = true → menbi = menbi2)
    (hemenbi : (uliFlags hasCGI hasSAI hasRAI hasTAI hasECGI hasLAI hasMENBI hasEMENBI).testBit 7 = true → emenbi = emenbi2)
    (hlac : ((uliFlags hasCGI hasSAI hasRAI hasTAI hasECGI hasLAI hasMENBI hasEMENBI).testBit 0 = true
        ∨ (uliFlags hasCGI hasSAI hasRAI hasTAI hasECGI hasLAI hasMENBI hasEMENBI).testBit 1 = true
        ∨ (uliFlags hasCGI hasSAI hasRAI hasTAI hasECGI hasLAI hasMENBI hasEMENBI).testBit 2 = true
        ∨ (uliFlags hasCGI hasSAI hasRAI hasTAI hasECGI hasLAI hasMENBI hasEMENBI).testBit 5 = true) → lac = lac2) :
    NewUserLocationInformation u hasCGI hasSAI hasRAI hasTAI hasECGI hasLAI hasMENBI hasEMENBI
        mcc mnc lac ci sac rac tac eci menbi emenbi
      = NewUserLocationInformation u hasCGI hasSAI hasRAI hasTAI hasECGI hasLAI hasMENBI hasEMENBI
          mcc mnc lac2 ci2 sac2 rac2 tac2 eci2 menbi2 emenbi2 := by
  simp only [← present_iff_testBit] at hci hsac hrac htac heci hmenbi hemenbi hlac
  rw [NewUserLocationInformation_eq, NewUserLocationInformation_eq]
  cases u.EncodePLMN mcc mnc with
  | error e => rfl
  | ok plmn =>
    simp only
    congr 3
    apply uliLayout_congr
    intro k hk hp
    interval_cases k
    · simp only [kindRecord, hci hp, hlac (Or.inl hp)]
    · simp only [kindRecord, hsac hp, hlac (Or.inr (Or.inl hp))]
    · simp only [kindRecord, hrac hp, hlac (Or.inr (Or.inr (Or.inl hp)))]
    · simp only [kindRecord, htac hp]
    · simp only [kindRecord, heci hp]
    · simp only [kindRecord, hlac (Or.inr (Or.inr (Or.inr hp)))]
    · simp only [kindRecord, hmenbi hp]
    · simp only [kindRecord, hemenbi hp]

theorem NewUserLocationInformation_absent_fields_witness :
    ((uliFlags 0 0 0 1 0 0 1 0).testBit 0 = true → (1 : Nat) = 11) ∧
    ((uliFlags 0 0 0 1 0 0 1 0).testBit 1 = true → (2 : Nat) = 12) ∧
    ((uliFlags 0 0 0 1 0 0 1 0).testBit 2 = true → (3 : Nat) = 13) ∧
    ((uliFlags 0 0 0 1 0 0 1 0).testBit 3 = true → (4 : Nat) = 4) ∧
    ((uliFlags 0 0 0 1 0 0 1 0).testBit 4 = true → (5 : Nat) = 15) ∧
    ((uliFlags 0 0 0 1 0 0 1 0).testBit 6 = true → (6 : Nat) = 6) ∧
    ((uliFlags 0 0 0 1 0 0 1 0).testBit 7 = true → (7 : Nat) = 17) ∧
    (((uliFlags 0 0 0 1 0 0 1 0).testBit 0 = true ∨ (uliFlags 0 0 0 1 0 0 1 0).testBit 1 = true
        ∨ (uliFlags 0 0 0 1 0 0 1 0).testBit 2 = true
        ∨ (uliFlags 0 0 0 1 0 0 1 0).testBit 5 = true) → (0xff : Nat) = 0xee) ∧
    NewUserLocationInformation utils 0 0 0 1 0 0 1 0 "123" "45" 0xff 1 2 3 4 5 6 7
      = NewUserLocationInformation utils 0 0 0 1 0 0 1 0 "123" "45" 0xee 11 12 13 4 15 6 17 :=
  ⟨by decide, by decide, by decide, by decide, by decide, by decide, by decide, by decide,
    NewUserLocationInformation_absent_fields utils 0 0 0 1 0 0 1 0 "123" "45"
      0xff 1 2 3 4 5 6 7 0xee 11 12 13 4 15 6 17
      (by decide) (by decide) (by decide) (by decide) (by decide) (by decide) (by decide)
      (by decide)⟩

/-! ## C14: only the least significant bit of a has-argument counts -/

theorem uliFlags_and_one (h0 h1 h2 h3 h4 h5 h6 h7 : Nat) :
    uliFlags (h0 &&& 0x01) (h1 &&& 0x01) (h2 &&& 0x01) (h3 &&& 0x01) (h4 &&& 0x01)
        (h5 &&& 0x01) (h6 &&& 0x01) (h7 &&& 0x01)
      = uliFlags h0 h1 h2 h3 h4 h5 h6 h7 := by
  simp only [uliFlags, Nat.and_one_is_mod, Nat.mod_mod]

/-- C14: for all has-arguments the result of `NewUserLocationInformation`
equals the result with every has-argument `h` replaced by `h & 1`; in
particular `hasCGI = 2` gives the mask and the result of `hasCGI = 0`, whatever
the other has-arguments are, so it sets no bit of any kind. -/
theorem NewUserLocationInformation_lsb_only (u : Utils)
    (hasCGI hasSAI hasRAI hasTAI hasECGI hasLAI hasMENBI hasEMENBI : Nat)
    (mcc mnc : String) (lac ci sac rac tac eci menbi emenbi : Nat) :
    NewUserLocationInformation u hasCGI hasSAI hasRAI hasTAI hasECGI hasLAI hasMENBI hasEMENBI
        mcc mnc lac ci sac rac tac eci menbi emenbi
      = NewUserLocationInformation u (hasCGI &&& 0x01) (hasSAI &&& 0x01) (hasRAI &&& 0x01)
          (hasTAI &&& 0x01) (hasECGI &&& 0x01) (hasLAI &&& 0x01) (hasMENBI &&& 0x01)
          (hasEMENBI &&& 0x01)
          mcc mnc lac ci sac rac tac eci menbi emenbi ∧
    uliFlags 2 hasSAI hasRAI hasTAI hasECGI hasLAI hasMENBI hasEMENBI
      = uliFlags 0 hasSAI hasRAI hasTAI hasECGI hasLAI hasMENBI hasEMENBI ∧
    NewUserLocationInformation u 2 hasSAI hasRAI hasTAI hasECGI hasLAI hasMENBI hasEMENBI
        mcc mnc lac ci sac rac tac eci menbi emenbi
      = NewUserLocationInformation u 0 hasSAI hasRAI hasTAI hasECGI hasLAI hasMENBI hasEMENBI
          mcc mnc lac ci sac rac tac eci menbi emenbi ∧
    uliFlags 2 0 0 0 0 0 0 0 = 0 := by
  have h2 : uliFlags 2 hasSAI hasRAI hasTAI hasECGI hasLAI hasMENBI hasEMENBI
      = uliFlags 0 hasSAI hasRAI hasTAI hasECGI hasLAI hasMENBI hasEMENBI := by
    simp only [uliFlags, Nat.and_one_is_mod, Nat.reduceMod]
  refine ⟨?_, h2, ?_, rfl⟩
  · rw [NewUserLocationInformation_eq, NewUserLocationInformation_eq, uliFlags_and_one]
  · rw [NewUserLocationInformation_eq, NewUserLocationInformation_eq, h2]

/-! ## C15: the ECI field -/

theorem and_fffff (eci : Nat) : eci &&& 0xfffff = eci % 2 ^ 20 :=
  Nat.and_pow_two_sub_one_eq_mod eci 20

theorem be32_masked (eci : Nat) :
    be32 (eci &&& 0xfffff)
      = [0x00, eci % 2 ^ 20 / 65536, eci / 256 % 256, eci % 256] := by
  rw [and_fffff]
  simp only [be32, Nat.shiftRight_eq_div_pow, Nat.reducePow, List.cons.injEq, and_true]
  refine ⟨?_, ?_, ?_, ?_⟩ <;> omega

/-- C15: whenever `utils.EncodePLMN` succeeds and the ECGI bit is set, the four
bytes after the PLMN of the ECGI sub-record are `eci & 0xfffff`, the low 20
bits of `eci`, in big-endian: the first of them is `0x00` and the high nibble
of the second is 0; and two values of `eci` that agree modulo `2 ^ 20` give
the same result. -/
theorem NewUserLocationInformation_eci_masked (u : Utils)
    (hasCGI hasSAI hasRAI hasTAI hasECGI hasLAI hasMENBI hasEMENBI : Nat)
    (mcc mnc : String) (lac ci sac rac tac eci menbi emenbi : Nat) (plmn : List Nat)
    (hplmn : u.EncodePLMN mcc mnc = .ok plmn)
    (hp : (uliFlags hasCGI hasSAI hasRAI hasTAI hasECGI hasLAI hasMENBI hasEMENBI).testBit 4 = true) :
    ∃ ie, NewUserLocationInformation u hasCGI hasSAI hasRAI hasTAI hasECGI hasLAI hasMENBI hasEMENBI
        mcc mnc lac ci sac rac tac eci menbi emenbi = some (some ie) ∧
      (ie.Payload.drop
          (1 + lenFrom (uliFlags hasCGI hasSAI hasRAI hasTAI hasECGI hasLAI hasMENBI hasEMENBI) 0 4 + 3)).take 4
        = be32 (eci &&& 0xfffff) ∧
      eci &&& 0xfffff = eci % 2 ^ 20 ∧
      be32 (eci &&& 0xfffff)
        = [0x00, eci % 2 ^ 20 / 65536, eci / 256 % 256, eci % 256] ∧
      eci % 2 ^ 20 / 65536 / 16 = 0 ∧
      ∀ eci2, eci2 % 2 ^ 20 = eci % 2 ^ 20 →
        NewUserLocationInformation u hasCGI hasSAI hasRAI hasTAI hasECGI hasLAI hasMENBI hasEMENBI
            mcc mnc lac ci sac rac tac eci2 menbi emenbi
          = NewUserLocationInformation u hasCGI hasSAI hasRAI hasTAI hasECGI hasLAI hasMENBI hasEMENBI
            mcc mnc lac ci sac rac tac eci menbi emenbi := by
  rw [← present_iff_testBit] at hp
  refine ⟨_, NewUserLocationInformation_ok u hasCGI hasSAI hasRAI hasTAI hasECGI hasLAI hasMENBI hasEMENBI
    mcc mnc lac ci sac rac tac eci menbi emenbi plmn hplmn, ?_, and_fffff eci, be32_masked eci, by omega, ?_⟩
  · have h1 := uliLayout_slice u _ plmn lac ci sac rac tac eci menbi emenbi 4 (by decide) hp
    have h7 : kindLen 4 = 7 := rfl
    have hk : kindRecord u plmn lac ci sac rac tac eci menbi emenbi 4
        = padTo 3 plmn ++ be32 (eci &&& 0xfffff) := rfl
    rw [h7, hk] at h1
    have h2 := congrArg (List.drop 3) h1
    rw [List.drop_take, List.drop_drop, List.drop_left' (padTo_length 3 plmn)] at h2
    exact h2
  · intro eci2 h2
    rw [NewUserLocationInformation_eq, NewUserLocationInformation_eq]
    cases u.EncodePLMN mcc mnc with
    | error e => rfl
    | ok plmn2 =>
      simp only
      congr 3
      apply uliLayout_congr
      intro k hk _
      interval_cases k <;> simp only [kindRecord, and_fffff, h2]

theorem NewUserLocationInformation_eci_masked_witness :
    utils.EncodePLMN "123" "45" = .ok [0x21, 0xf3, 0x54] ∧
    (uliFlags 1 0 0 0 1 0 0 0).testBit 4 = true ∧
    ∃ ie, NewUserLocationInformation utils 1 0 0 0 1 0 0 0
        "123" "45" 0xff 1 2 3 4 0xfedcba98 6 7 = some (some ie) ∧
      (ie.Payload.drop (1 + lenFrom (uliFlags 1 0 0 0 1 0 0 0) 0 4 + 3)).take 4
        = be32 (0xfedcba98 &&& 0xfffff) :=
  ⟨rfl, by decide, (NewUserLocationInformation_eci_masked utils 1 0 0 0 1 0 0 0 "123" "45"
    0xff 1 2 3 4 0xfedcba98 6 7 [0x21, 0xf3, 0x54] rfl (by decide)).imp
    fun _ h => ⟨h.1, h.2.1⟩⟩

/-! ## C16: the lazy constructor truncates its arguments -/

/-- C16: whenever `utils.EncodePLMN` succeeds, `NewUserLocationInformationLazy`
encodes each of `lac`, `ci`, `sac`, `rac`, `tac` as `uint16` of the argument,
its value modulo `2 ^ 16`, in the two bytes of the field.  When `lac` is
negative the LAI bit is clear and no LAI sub-record is written, while the CGI,
SAI and RAI sub-records, written when `ci`, `sac`, `rac` are not negative,
carry the low 16 bits of `lac`, which are `ff ff` for `lac = -1`. -/
theorem NewUserLocationInformationLazy_truncates (u : Utils) (mcc mnc : String)
    (lac ci sac rac tac eci menbi emenbi : Int) (plmn : List Nat)
    (hplmn : u.EncodePLMN mcc mnc = .ok plmn) :
    ∃ mask rest, NewUserLocationInformationLazy u mcc mnc lac ci sac rac tac eci menbi emenbi
        = some (some (New UserLocationInformation 0x00 (mask :: rest))) ∧
      rest =
        (if 0 ≤ ci then padTo 3 plmn ++ be16 (toUint16 lac) ++ be16 (toUint16 ci) else [])
          ++ (if 0 ≤ sac then padTo 3 plmn ++ be16 (toUint16 lac) ++ be16 (toUint16 sac)
            else [])
          ++ (if 0 ≤ rac then padTo 3 plmn ++ be16 (toUint16 lac) ++ be16 (toUint16 rac)
            else [])
          ++ (if 0 ≤ tac then padTo 3 plmn ++ be16 (toUint16 tac) else [])
          ++ (if 0 ≤ eci then padTo 3 plmn ++ be32 (toUint32 eci &&& 0xfffff) else [])
          ++ (if 0 ≤ lac then padTo 3 plmn ++ be16 (toUint16 lac) else [])
          ++ (if 0 ≤ menbi then padTo 3 plmn ++ padTo 3 (u.Uint32To24 (toUint32 menbi))
            else [])
          ++ (if 0 ≤ emenbi then padTo 3 plmn ++ padTo 3 (u.Uint32To24 (toUint32 emenbi))
            else []) ∧
      ((toUint16 lac : Int) = lac % 2 ^ 16 ∧ (toUint16 ci : Int) = ci % 2 ^ 16 ∧
        (toUint16 sac : Int) = sac % 2 ^ 16 ∧ (toUint16 rac : Int) = rac % 2 ^ 16 ∧
        (toUint16 tac : Int) = tac % 2 ^ 16) ∧
      (lac < 0 → mask.testBit 5 = false) ∧
      be16 (toUint16 (-1)) = [0xff, 0xff] := by
  obtain ⟨b0, b1, b2, b3, b4, b5, b6, b7⟩ := present_hasOf lac ci sac rac tac eci menbi emenbi
  have hmod : ∀ x : Int, (toUint16 x : Int) = x % 2 ^ 16 := by
    intro x
    unfold toUint16
    exact Int.toNat_of_nonneg (Int.emod_nonneg x (by decide))
  refine ⟨uliFlags (hasOf ci) (hasOf sac) (hasOf rac) (hasOf tac) (hasOf eci) (hasOf lac)
        (hasOf menbi) (hasOf emenbi),
    recordsFrom u (uliFlags (hasOf ci) (hasOf sac) (hasOf rac) (hasOf tac) (hasOf eci) (hasOf lac)
        (hasOf menbi) (hasOf emenbi))
      plmn (toUint16 lac) (toUint16 ci) (toUint16 sac) (toUint16 rac) (toUint16 tac)
        (toUint32 eci) (toUint32 menbi) (toUint32 emenbi) 0 8, ?_, ?_,
    ⟨hmod lac, hmod ci, hmod sac, hmod rac, hmod tac⟩, ?_, rfl⟩
  · rw [NewUserLocationInformationLazy_unfold]
    exact NewUserLocationInformation_ok u _ _ _ _ _ _ _ _ mcc mnc _ _ _ _ _ _ _ _ plmn hplmn
  · rw [recordsFrom_eight]
    simp only [optRecord, kindRecord, b0, b1, b2, b3, b4, b5, b6, b7, List.append_assoc,
      List.append_nil]
  · intro hneg
    have h5 : ¬ present (uliFlags (hasOf ci) (hasOf sac) (hasOf rac) (hasOf tac) (hasOf eci) (hasOf lac)
        (hasOf menbi) (hasOf emenbi)) 5 := fun h => absurd (b5.mp h) (by omega)
    rw [present_iff_testBit] at h5
    exact Bool.eq_false_iff.mpr h5

theorem NewUserLocationInformationLazy_truncates_witness :
    utils.EncodePLMN "123" "45" = .ok [0x21, 0xf3, 0x54] ∧
    ∃ mask rest, NewUserLocationInformationLazy utils "123" "45" (-1) 70000 (-1) 7 (-1) 9
        (-1) 11
        = some (some (New UserLocationInformation 0x00 (mask :: rest))) :=
  ⟨rfl, (NewUserLocationInformationLazy_truncates utils "123" "45" (-1) 70000 (-1) 7 (-1) 9
    (-1) 11 [0x21, 0xf3, 0x54] rfl).elim fun m hm => hm.elim fun r hr => ⟨m, r, hr.1⟩⟩

/-! ## C11: the round trip -/

theorem Parse_Marshal (lookup : Nat → Except String Framing) (v : IE)
    (hTag : v.Tag < 256) (hInst : v.Inst = 0) (hLen : v.Payload.length < 65536)
    (hTLV : lookup v.Tag = .ok Framing.TLV) :
    Parse lookup (Marshal v) = .ok v := by
  obtain ⟨tag, ins, payload⟩ := v
  simp only at hTag hInst hLen hTLV
  subst hInst
  have hn : (payload.length >>> 8) % 256 * 256 + payload.length % 256 = payload.length := by
    rw [Nat.shiftRight_eq_div_pow]
    omega
  simp only [Marshal, be16, Nat.mod_eq_of_lt hTag, List.singleton_append, List.cons_append,
    List.nil_append, Parse, hTLV, hn, Nat.le_refl, if_true, List.take_length, New]

theorem readBE_be16 (a : Nat) (h : a < 65536) : readBE (be16 a) = a := by
  simp only [readBE, be16, List.foldl_cons, List.foldl_nil, Nat.shiftRight_eq_div_pow,
    Nat.reducePow]
  omega

theorem readBE_be32 (a : Nat) (h : a < 4294967296) : readBE (be32 a) = a := by
  simp only [readBE, be32, List.foldl_cons, List.foldl_nil, Nat.shiftRight_eq_div_pow,
    Nat.reducePow]
  omega

theorem readBE_be24 (a : Nat) : readBE (be24 a) = a % 2 ^ 24 := by
  simp only [readBE, be24, List.foldl_cons, List.foldl_nil, Nat.shiftRight_eq_div_pow,
    Nat.reducePow]
  omega

theorem fieldsPair_record (plmn : List Nat) (a b : Nat) (hlen : plmn.length = 3)
    (ha : a < 65536) (hb : b < 65536) :
    fieldsPair (padTo 3 plmn ++ be16 a ++ be16 b) = (plmn, a, b) := by
  rw [padTo_of_length_eq 3 plmn hlen]
  have h5 : (plmn ++ be16 a).length = 5 := by
    rw [List.length_append, hlen, be16_length]
  unfold fieldsPair
  rw [List.drop_left' h5, List.append_assoc, List.take_left' hlen, List.drop_left' hlen,
    List.take_left' (be16_length a), List.take_of_length_le (Nat.le_of_eq (be16_length b)),
    readBE_be16 a ha, readBE_be16 b hb]

theorem fieldsOne_record (w : Nat) (plmn tail : List Nat) (hlen : plmn.length = 3)
    (hw : tail.length = w) :
    fieldsOne w (padTo 3 plmn ++ tail) = (plmn, readBE tail) := by
  rw [padTo_of_length_eq 3 plmn hlen]
  unfold fieldsOne
  rw [List.take_left' hlen, List.drop_left' hlen,
    List.take_of_length_le (Nat.le_of_eq hw)]

theorem map_ite_some {α β : Type} (c : Prop) [Decidable c] (x : α) (f : α → β) :
    (if c then some x else none).map f = if c then some (f x) else none := by
  split <;> rfl

theorem readRecord_layout (u : Utils) (flags : Nat) (plmn : List Nat)
    (lac ci sac rac tac eci menbi emenbi : Nat) (k : Nat) (hk : k < 8) :
    readRecord (flags :: recordsFrom u flags plmn lac ci sac rac tac eci menbi emenbi 0 8)
        flags k (1 + lenFrom flags 0 k)
      = .ok (if present flags k then
            some (kindRecord u plmn lac ci sac rac tac eci menbi emenbi k) else none,
          1 + lenFrom flags 0 (k + 1)) := by
  have hlen : (flags :: recordsFrom u flags plmn lac ci sac rac tac eci menbi emenbi 0 8).length
      = 1 + lenFrom flags 0 8 := by
    rw [List.length_cons, recordsFrom_length, Nat.add_comm]
  have hle := lenFrom_step_le flags k 8 hk
  unfold readRecord
  by_cases hp : present flags k
  · have hopt : optLen flags k = kindLen k := if_pos hp
    have hslice := uliLayout_slice u flags plmn lac ci sac rac tac eci menbi emenbi k hk hp
    rw [uliLayout] at hslice
    rw [if_pos hp, if_pos hp, if_pos (by rw [hlen, ← hopt]; omega), hslice,
      lenFrom_succ_right, hopt, Nat.add_assoc]
  · have hopt : optLen flags k = 0 := if_neg hp
    rw [if_neg hp, if_neg hp, lenFrom_succ_right, hopt, Nat.add_zero]

theorem Decode_layout (u : Utils) (flags : Nat) (plmn : List Nat)
    (lac ci sac rac tac eci menbi emenbi : Nat) :
    Decode (flags :: recordsFrom u flags plmn lac ci sac rac tac eci menbi emenbi 0 8)
      = .ok {
        Flags := flags
        CGI := (if present flags 0 then
            some (kindRecord u plmn lac ci sac rac tac eci menbi emenbi 0) else none).map fieldsPair
        SAI := (if present flags 1 then
            some (kindRecord u plmn lac ci sac rac tac eci menbi emenbi 1) else none).map fieldsPair
        RAI := (if present flags 2 then
            some (kindRecord u plmn lac ci sac rac tac eci menbi emenbi 2) else none).map fieldsPair
        TAI := (if present flags 3 then
            some (kindRecord u plmn lac ci sac rac tac eci menbi emenbi 3) else none).map (fieldsOne 2)
        ECGI := (if present flags 4 then
            some (kindRecord u plmn lac ci sac rac tac eci menbi emenbi 4) else none).map (fieldsOne 4)
        LAI := (if present flags 5 then
            some (kindRecord u plmn lac ci sac rac tac eci menbi emenbi 5) else none).map (fieldsOne 2)
        MENBI := (if present flags 6 then
            some (kindRecord u plmn lac ci sac rac tac eci menbi emenbi 6) else none).map (fieldsOne 3)
        EMENBI := (if present flags 7 then
            some (kindRecord u plmn lac ci sac rac tac eci menbi emenbi 7) else none).map (fieldsOne 3) } := by
  have h0 := readRecord_layout u flags plmn lac ci sac rac tac eci menbi emenbi 0 (by decide)
  have h1 := readRecord_layout u flags plmn lac ci sac rac tac eci menbi emenbi 1 (by decide)
  have h2 := readRecord_layout u flags plmn lac ci sac rac tac eci menbi emenbi 2 (by decide)
  have h3 := readRecord_layout u flags plmn lac ci sac rac tac eci menbi emenbi 3 (by decide)
  have h4 := readRecord_layout u flags plmn lac ci sac rac tac eci menbi emenbi 4 (by decide)
  have h5 := readRecord_layout u flags plmn lac ci sac rac tac eci menbi emenbi 5 (by decide)
  have h6 := readRecord_layout u flags plmn lac ci sac rac tac eci menbi emenbi 6 (by decide)
  have h7 := readRecord_layout u flags plmn lac ci sac rac tac eci menbi emenbi 7 (by decide)
  simp only [Nat.reduceAdd, lenFrom_zero, Nat.add_zero] at h0 h1 h2 h3 h4 h5 h6 h7
  simp only [Decode, bind, Except.bind, h0, h1, h2, h3, h4, h5, h6, h7, pure, Except.pure]

/-- C11, as stated, fails on the recovery of the fields: built with only ECGI
present and `eci = 0x100000`, the IE has the payload of the one built with
`eci = 0`, whose decoding gives the ECI 0; no decoder of the payload can give
back `0x100000`. -/
theorem NewUserLocationInformation_roundtrip_counterexample :
    ∃ v, NewUserLocationInformation utils 0 0 0 0 1 0 0 0 "123" "45" 0 0 0 0 0 0x100000 0 0
        = some (some v) ∧
      NewUserLocationInformation utils 0 0 0 0 1 0 0 0 "123" "45" 0 0 0 0 0 0 0 0
        = some (some v) ∧
      Decode v.Payload = .ok {
        Flags := 0x10
        CGI := none
        SAI := none
        RAI := none
        TAI := none
        ECGI := some ([0x21, 0xf3, 0x54], 0)
        LAI := none
        MENBI := none
        EMENBI := none } ∧
      (0 : Nat) ≠ 0x100000 :=
  ⟨_, rfl, rfl, rfl, by decide⟩

/-- C11, amended: for every IE `v` built by `NewUserLocationInformation` from
a 3-byte PLMN (with `utils.Uint32To24` returning the three low bytes of its
argument and the location-information tag registered with Tag-Length-Value
framing), `Parse(Marshal(v))` equals `v`, and decoding its payload, the mask
byte first and then the sub-records in ascending bit order, each advancing the
offset by its fixed length, recovers the presence mask and the fields of every
present kind as they were encoded: the PLMN, `lac`, `ci`, `sac`, `rac`, `tac`
in full, `eci` modulo `2 ^ 20`, and `menbi`, `emenbi` modulo `2 ^ 24`. -/
theorem NewUserLocationInformation_roundtrip (u : Utils)
    (lookup : Nat → Except String Framing)
    (hasCGI hasSAI hasRAI hasTAI hasECGI hasLAI hasMENBI hasEMENBI : Nat)
    (mcc mnc : String) (lac ci sac rac tac eci menbi emenbi : Nat) (plmn : List Nat)
    (hplmn : u.EncodePLMN mcc mnc = .ok plmn) (hlen : plmn.length = 3)
    (hU : ∀ v, u.Uint32To24 v = be24 v)
    (hTLV : lookup UserLocationInformation = .ok Framing.TLV)
    (hlac : lac < 65536) (hci : ci < 65536) (hsac : sac < 65536) (hrac : rac < 65536)
    (htac : tac < 65536) :
    ∃ v, NewUserLocationInformation u hasCGI hasSAI hasRAI hasTAI hasECGI hasLAI hasMENBI hasEMENBI
        mcc mnc lac ci sac rac tac eci menbi emenbi = some (some v) ∧
      Parse lookup (Marshal v) = .ok v ∧
      Decode v.Payload = .ok {
        Flags := uliFlags hasCGI hasSAI hasRAI hasTAI hasECGI hasLAI hasMENBI hasEMENBI
        CGI := if (uliFlags hasCGI hasSAI hasRAI hasTAI hasECGI hasLAI hasMENBI hasEMENBI).testBit 0
          then some (plmn, lac, ci) else none
        SAI := if (uliFlags hasCGI hasSAI hasRAI hasTAI hasECGI hasLAI hasMENBI hasEMENBI).testBit 1
          then some (plmn, lac, sac) else none
        RAI := if (uliFlags hasCGI hasSAI hasRAI hasTAI hasECGI hasLAI hasMENBI hasEMENBI).testBit 2
          then some (plmn, lac, rac) else none
        TAI := if (uliFlags hasCGI hasSAI hasRAI hasTAI hasECGI hasLAI hasMENBI hasEMENBI).testBit 3
          then some (plmn, tac) else none
        ECGI := if (uliFlags hasCGI hasSAI hasRAI hasTAI hasECGI hasLAI hasMENBI hasEMENBI).testBit 4
          then some (plmn, eci % 2 ^ 20) else none
        LAI := if (uliFlags hasCGI hasSAI hasRAI hasTAI hasECGI hasLAI hasMENBI hasEMENBI).testBit 5
          then some (plmn, lac) else none
        MENBI := if (uliFlags hasCGI hasSAI hasRAI hasTAI hasECGI hasLAI hasMENBI hasEMENBI).testBit 6
          then some (plmn, menbi % 2 ^ 24) else none
        EMENBI := if (uliFlags hasCGI hasSAI hasRAI hasTAI hasECGI hasLAI hasMENBI hasEMENBI).testBit 7
          then some (plmn, emenbi % 2 ^ 24) else none } := by
  refine ⟨_, NewUserLocationInformation_ok u hasCGI hasSAI hasRAI hasTAI hasECGI hasLAI hasMENBI hasEMENBI
    mcc mnc lac ci sac rac tac eci menbi emenbi plmn hplmn, ?_, ?_⟩
  · have hT : UserLocationInformation < 256 := by decide
    apply Parse_Marshal lookup _ hT rfl _ hTLV
    show (uliLayout u _ plmn lac ci sac rac tac eci menbi emenbi).length < 65536
    have hb := uliPayloadLen_bounds (uliFlags hasCGI hasSAI hasRAI hasTAI hasECGI hasLAI hasMENBI hasEMENBI)
    rw [uliLayout_length]
    omega
  · have h20 : eci &&& 0xfffff < 4294967296 := by
      rw [and_fffff]
      omega
    have e0 : fieldsPair (kindRecord u plmn lac ci sac rac tac eci menbi emenbi 0) = (plmn, lac, ci) :=
      fieldsPair_record plmn lac ci hlen hlac hci
    have e1 : fieldsPair (kindRecord u plmn lac ci sac rac tac eci menbi emenbi 1) = (plmn, lac, sac) :=
      fieldsPair_record plmn lac sac hlen hlac hsac
    have e2 : fieldsPair (kindRecord u plmn lac ci sac rac tac eci menbi emenbi 2) = (plmn, lac, rac) :=
      fieldsPair_record plmn lac rac hlen hlac hrac
    have e3 : fieldsOne 2 (kindRecord u plmn lac ci sac rac tac eci menbi emenbi 3) = (plmn, tac) := by
      rw [show kindRecord u plmn lac ci sac rac tac eci menbi emenbi 3 = padTo 3 plmn ++ be16 tac from rfl,
        fieldsOne_record 2 plmn _ hlen (be16_length tac), readBE_be16 tac htac]
    have e4 : fieldsOne 4 (kindRecord u plmn lac ci sac rac tac eci menbi emenbi 4) = (plmn, eci % 2 ^ 20) := by
      rw [show kindRecord u plmn lac ci sac rac tac eci menbi emenbi 4
          = padTo 3 plmn ++ be32 (eci &&& 0xfffff) from rfl,
        fieldsOne_record 4 plmn _ hlen (be32_length _), readBE_be32 _ h20, and_fffff]
    have e5 : fieldsOne 2 (kindRecord u plmn lac ci sac rac tac eci menbi emenbi 5) = (plmn, lac) := by
      rw [show kindRecord u plmn lac ci sac rac tac eci menbi emenbi 5 = padTo 3 plmn ++ be16 lac from rfl,
        fieldsOne_record 2 plmn _ hlen (be16_length lac), readBE_be16 lac hlac]
    have e6 : fieldsOne 3 (kindRecord u plmn lac ci sac rac tac eci menbi emenbi 6) = (plmn, menbi % 2 ^ 24) := by
      rw [show kindRecord u plmn lac ci sac rac tac eci menbi emenbi 6
          = padTo 3 plmn ++ padTo 3 (u.Uint32To24 menbi) from rfl,
        hU, padTo_of_length_eq 3 (be24 menbi) rfl,
        fieldsOne_record 3 plmn (be24 menbi) hlen rfl,
        readBE_be24]
    have e7 : fieldsOne 3 (kindRecord u plmn lac ci sac rac tac eci menbi emenbi 7) = (plmn, emenbi % 2 ^ 24) := by
      rw [show kindRecord u plmn lac ci sac rac tac eci menbi emenbi 7
          = padTo 3 plmn ++ padTo 3 (u.Uint32To24 emenbi) from rfl,
        hU, padTo_of_length_eq 3 (be24 emenbi) rfl,
        fieldsOne_record 3 plmn (be24 emenbi) hlen rfl,
        readBE_be24]
    show Decode (_ :: recordsFrom u _ plmn lac ci sac rac tac eci menbi emenbi 0 8) = _
    rw [Decode_layout]
    simp only [map_ite_some, e0, e1, e2, e3, e4, e5, e6, e7, present_iff_testBit]

theorem NewUserLocationInformation_roundtrip_witness :
    utils.EncodePLMN "123" "45" = .ok [0x21, 0xf3, 0x54] ∧
    [0x21, 0xf3, 0x54].length = 3 ∧ (∀ v, utils.Uint32To24 v = be24 v) ∧
    LookupType UserLocationInformation = .ok Framing.TLV ∧
    (0xff < 65536 ∧ 1 < 65536 ∧ 2 < 65536 ∧ 3 < 65536 ∧ 4 < 65536) ∧
    ∃ v, NewUserLocationInformation utils 1 0 1 1 1 0 1 0
        "123" "45" 0xff 1 2 3 4 0x100005 0x1000006 7 = some (some v) ∧
      Parse LookupType (Marshal v) = .ok v :=
  ⟨rfl, rfl, fun _ => rfl, rfl, by decide,
    (NewUserLocationInformation_roundtrip utils LookupType 1 0 1 1 1 0 1 0 "123" "45"
      0xff 1 2 3 4 0x100005 0x1000006 7 [0x21, 0xf3, 0x54] rfl rfl (fun _ => rfl) rfl
      (by decide) (by decide) (by decide) (by decide) (by decide)).imp
      fun _ h => ⟨h.1, h.2.1⟩⟩

end GoGtp
